import Mathlib

/-!
Shallow embedding, in Lean 4, of the document ingestion and extraction
pipeline of the `presupuesto-automatico` repository
(`backend/app/pdf_processor/`: `data_extractor.py`, `format_detector.py`,
`pdf_reader.py`, `ocr_processor.py`), together with proofs settling the
frozen claims about that code.

Conventions of the embedding:
* Python `str` values are modelled as `List Char` (`PyStr`); the helper
  functions (`pyStrip`, `pySplit`, ...) reproduce the CPython semantics of
  the corresponding `str` methods for the character ranges that occur in
  this repository.
* Python `Decimal` values (produced by `decimal.Decimal(<string>)` on the
  strings this code feeds it) are modelled as `ℚ`: on those inputs Decimal
  arithmetic (parsing, `*`, comparison) is exact rational arithmetic.
  Python `float` division (`/`) is likewise modelled as exact division in
  `ℚ`; every concrete value examined by a theorem below is far from any
  double-rounding boundary.
* Python exceptions are modelled with `Except Unit`: operations that can
  raise return `Except`, an enclosing `try/except` is a `match`.
* The regular-expression operations of the `re` module are modelled by a
  small backtracking engine (`RE`, `REc`, `mc`) whose alternation order,
  greedy/lazy repetition and leftmost-search semantics follow CPython's
  `re` backtracking behaviour.  All functions are structurally recursive
  so that concrete runs reduce inside the kernel (`decide`/`rfl`).
-/

/-! ## Python string primitives -/

/-- Python strings, as lists of characters. -/
abbrev PyStr := List Char

/-- Characters treated as whitespace by Python's `str.strip`, `str.split`
and by `\s` in the `re` module (for the Latin-1 range; wider Unicode
whitespace does not occur in this repository's data). -/
def pyIsSpaceB (c : Char) : Bool :=
  c = ' ' || c = '\t' || c = '\n' || c = '\x0d' || c = '\x0b' || c = '\x0c' ||
  c = '\x1c' || c = '\x1d' || c = '\x1e' || c = '\x1f' || c = '\x85' || c = '\xa0'

/-- `str.lstrip()` (no argument): drop leading whitespace. -/
def pyLstrip (l : PyStr) : PyStr := l.dropWhile pyIsSpaceB

/-- `str.rstrip()` (no argument): drop trailing whitespace. -/
def pyRstrip (l : PyStr) : PyStr := (l.reverse.dropWhile pyIsSpaceB).reverse

/-- `str.strip()` (no argument). -/
def pyStrip (l : PyStr) : PyStr := pyLstrip (pyRstrip l)

/-- Helper for `collapseRuns`: the flag records whether we are inside a
run of characters satisfying `p` (whose first character has already been
replaced by `rep`). -/
def collapseRunsAux (p : Char → Bool) (rep : Char) : Bool → PyStr → PyStr
  | _, [] => []
  | inRun, c :: rest =>
    if p c then
      if inRun then collapseRunsAux p rep true rest
      else rep :: collapseRunsAux p rep true rest
    else c :: collapseRunsAux p rep false rest

/-- `re.sub(<one-or-more-of-class-p>, rep, s)`: replace every maximal run
of characters satisfying `p` by the single character `rep`.  Used for the
source's `re.sub(r'\s+', ' ', text)` and `re.sub(r'\n+', '\n', text)`. -/
def collapseRuns (p : Char → Bool) (rep : Char) (l : PyStr) : PyStr :=
  collapseRunsAux p rep false l

/-- `str.split()` (no argument): split on whitespace runs, dropping empty
pieces. -/
def pySplitAux : PyStr → PyStr → List PyStr
  | acc, [] => if acc.isEmpty then [] else [acc.reverse]
  | acc, c :: rest =>
    if pyIsSpaceB c then
      if acc.isEmpty then pySplitAux [] rest
      else acc.reverse :: pySplitAux [] rest
    else pySplitAux (c :: acc) rest

/-- `str.split()` (no argument). -/
def pySplit (l : PyStr) : List PyStr := pySplitAux [] l

/-- `x in s` for strings: `needle` occurs as a contiguous substring. -/
def containsSub (hay needle : PyStr) : Bool :=
  match hay with
  | [] => needle.isEmpty
  | _ :: rest => needle.isPrefixOf hay || containsSub rest needle

/-- `str.lower()` for the characters appearing in this repository
(ASCII plus the Latin-1 accented letters used in the Spanish texts). -/
def pyLowerChar (c : Char) : Char :=
  if 'A' ≤ c && c ≤ 'Z' then Char.ofNat (c.toNat + 32)
  else if c = 'Á' then 'á' else if c = 'É' then 'é' else if c = 'Í' then 'í'
  else if c = 'Ó' then 'ó' else if c = 'Ú' then 'ú' else if c = 'Ñ' then 'ñ'
  else if c = 'Ü' then 'ü' else c

/-- `str.upper()` for the same character range. -/
def pyUpperChar (c : Char) : Char :=
  if 'a' ≤ c && c ≤ 'z' then Char.ofNat (c.toNat - 32)
  else if c = 'á' then 'Á' else if c = 'é' then 'É' else if c = 'í' then 'Í'
  else if c = 'ó' then 'Ó' else if c = 'ú' then 'Ú' else if c = 'ñ' then 'Ñ'
  else if c = 'ü' then 'Ü' else c

/-- `str.lower()`. -/
def pyLower (l : PyStr) : PyStr := l.map pyLowerChar

/-- `str.upper()`. -/
def pyUpper (l : PyStr) : PyStr := l.map pyUpperChar

/-- A character with upper/lower case in the range handled here
("cased" in the sense of `str.isupper`). -/
def pyIsCased (c : Char) : Bool :=
  ('A' ≤ c && c ≤ 'Z') || ('a' ≤ c && c ≤ 'z') ||
  c = 'Á' || c = 'É' || c = 'Í' || c = 'Ó' || c = 'Ú' || c = 'Ñ' || c = 'Ü' ||
  c = 'á' || c = 'é' || c = 'í' || c = 'ó' || c = 'ú' || c = 'ñ' || c = 'ü'

/-- An uppercase cased character. -/
def pyIsUpperChar (c : Char) : Bool :=
  ('A' ≤ c && c ≤ 'Z') ||
  c = 'Á' || c = 'É' || c = 'Í' || c = 'Ó' || c = 'Ú' || c = 'Ñ' || c = 'Ü'

/-- `str.isupper()`: at least one cased character and no lowercase cased
character. -/
def pyIsUpperStr (l : PyStr) : Bool :=
  l.any pyIsCased && l.all (fun c => !pyIsCased c || pyIsUpperChar c)

/-- Split on every occurrence of a single character, keeping empty pieces
(the semantics of `str.split(<one-char-sep>)`). -/
def pySplitCharAux (sep : Char) : PyStr → PyStr → List PyStr
  | acc, [] => [acc.reverse]
  | acc, c :: rest =>
    if c = sep then acc.reverse :: pySplitCharAux sep [] rest
    else pySplitCharAux sep (c :: acc) rest

/-- `str.split(<one-char-sep>)`. -/
def pySplitChar (sep : Char) (l : PyStr) : List PyStr := pySplitCharAux sep [] l

/-- `str.split('\n')`: split on every newline, keeping empty pieces
(CPython returns `['']` for the empty string). -/
def pySplitNl (l : PyStr) : List PyStr := pySplitChar '\n' l

/-- Numeric value of a digit string. -/
def digitsNat (l : PyStr) : Nat := l.foldl (fun acc c => acc * 10 + (c.toNat - '0'.toNat)) 0

/-- `decimal.Decimal(<string>)` restricted to the unsigned plain-decimal
strings this repository produces (digits with at most one `'.'`, no sign,
no exponent, no surrounding whitespace).  Returns `none` exactly when
CPython's constructor would raise `InvalidOperation` on such a string
(no digits at all, or more than one dot). -/
def pyDecimal (l : PyStr) : Option ℚ :=
  match pySplitChar '.' l with
  | [ip] =>
    if ip ≠ [] && ip.all Char.isDigit then some (digitsNat ip : ℚ) else none
  | [ip, fp] =>
    if (ip ≠ [] || fp ≠ []) && ip.all Char.isDigit && fp.all Char.isDigit then
      some ((digitsNat ip : ℚ) + (digitsNat fp : ℚ) / (10 : ℚ) ^ fp.length)
    else none
  | _ => none

/-- `float(<string>)` on the same restricted decimal strings; the code
using it (`_extract_budget_patterns`) only compares the result against
wide bounds, for which exact rational arithmetic is faithful. -/
def pyFloatOfStr (l : PyStr) : Option ℚ := pyDecimal l

/-! ## A small backtracking regular-expression engine

Patterns are transcribed from the source's `re` pattern strings into the
`RE` syntax below.  Unbounded repetitions (`*`, `+`) are compiled, for a
given subject string, into bounded repetitions whose bound exceeds the
subject length; this is an exact encoding of `re` semantics here because
the body of every repetition appearing in this repository's patterns
consumes at least one character per iteration.  The matcher `mc` is a
continuation-passing backtracking matcher: alternation prefers its left
branch, greedy repetition prefers more iterations, lazy repetition
prefers fewer — CPython `re`'s strategy. -/

/-- Source-level regular expressions. -/
inductive RE where
  | fail
  | eps
  | cls (p : Char → Bool)
  | seq (a b : RE)
  | alt (a b : RE)
  | grp (i : Nat) (a : RE)
  | wordB
  | bos
  | eos
  | rep (a : RE) (lo : Nat) (hi : Option Nat) (greedy : Bool)

/-- Repetition-free (compiled) regular expressions. -/
inductive REc where
  | fail
  | eps
  | cls (p : Char → Bool)
  | seq (a b : REc)
  | alt (a b : REc)
  | grp (i : Nat) (a : REc)
  | wordB
  | bos
  | eos

/-- Minimum number of characters a pattern must consume; used to bound
the unrolling of unbounded repetitions. -/
def RE.minLen : RE → Nat
  | .fail => 1
  | .eps => 0
  | .cls _ => 1
  | .seq a b => a.minLen + b.minLen
  | .alt a b => min a.minLen b.minLen
  | .grp _ a => a.minLen
  | .wordB => 0
  | .bos => 0
  | .eos => 0
  | .rep a lo _ _ => lo * a.minLen

/-- `k` mandatory copies of `a`, followed by `tail`. -/
def mandSeq (a : REc) (tail : REc) : Nat → REc
  | 0 => tail
  | k + 1 => .seq a (mandSeq a tail k)

/-- Up to `k` further copies of `a`; `greedy` chooses whether the extra
copy is preferred (greedy) or avoided (lazy). -/
def optSeq (a : REc) (greedy : Bool) : Nat → REc
  | 0 => .eps
  | k + 1 =>
    if greedy then .alt (.seq a (optSeq a greedy k)) .eps
    else .alt .eps (.seq a (optSeq a greedy k))

/-- Compile `RE` to `REc`, unrolling repetitions.  `n` is the subject
length; an unbounded repetition is given `n / max 1 (minLen body) + 1`
optional copies, enough that the bound is never the binding constraint. -/
def RE.compile (n : Nat) : RE → REc
  | .fail => .fail
  | .eps => .eps
  | .cls p => .cls p
  | .seq a b => .seq (a.compile n) (b.compile n)
  | .alt a b => .alt (a.compile n) (b.compile n)
  | .grp i a => .grp i (a.compile n)
  | .wordB => .wordB
  | .bos => .bos
  | .eos => .eos
  | .rep a lo hi greedy =>
    let ac := a.compile n
    let extra := match hi with
      | some h => h - lo
      | none => n / max 1 a.minLen + 1
    mandSeq ac (optSeq ac greedy extra) lo

/-- Word characters for `\b` (ASCII `\w`; the subjects where `\b` is
evaluated in this development are ASCII). -/
def isWordChar (c : Char) : Bool :=
  c.isDigit || ('a' ≤ c && c ≤ 'z') || ('A' ≤ c && c ≤ 'Z') || c = '_' || c.toNat ≥ 128

/-- Recorded group captures: `(index, start, stop)`, most recent first. -/
abbrev GroupRec := List (Nat × Nat × Nat)

/-- The backtracking matcher.  `rest` is the unread suffix, `pos` its
offset in the subject, `prev` the character just before `pos`, `g` the
captures so far, `k` the continuation.  Alternation takes the first
branch that lets the whole continuation succeed. -/
def mc (r : REc) (rest : PyStr) (pos : Nat) (prev : Option Char) (g : GroupRec)
    (k : PyStr → Nat → Option Char → GroupRec → Option (Nat × GroupRec)) :
    Option (Nat × GroupRec) :=
  match r with
  | .fail => none
  | .eps => k rest pos prev g
  | .cls p =>
    match rest with
    | [] => none
    | c :: rs => if p c then k rs (pos + 1) (some c) g else none
  | .seq a b => mc a rest pos prev g (fun r' p' pr' g' => mc b r' p' pr' g' k)
  | .alt a b => (mc a rest pos prev g k).orElse (fun _ => mc b rest pos prev g k)
  | .grp i a => mc a rest pos prev g (fun r' p' pr' g' => k r' p' pr' ((i, pos, p') :: g'))
  | .wordB =>
    let pw := match prev with | some c => isWordChar c | none => false
    let nw := match rest with | c :: _ => isWordChar c | [] => false
    if pw ≠ nw then k rest pos prev g else none
  | .bos => if pos = 0 then k rest pos prev g else none
  | .eos => if rest.isEmpty then k rest pos prev g else none

/-- A match object: subject, span and captures (`re.Match`). -/
structure PyMatch where
  src : PyStr
  startPos : Nat
  stopPos : Nat
  groups : GroupRec
deriving Repr

/-- Substring of `s` from `a` (inclusive) to `b` (exclusive). -/
def strSlice (s : PyStr) (a b : Nat) : PyStr := (s.drop a).take (b - a)

/-- `match.group(0)`. -/
def PyMatch.group0 (m : PyMatch) : PyStr := strSlice m.src m.startPos m.stopPos

/-- Most recent capture of group `i`. -/
def lookupGroup (i : Nat) : GroupRec → Option (Nat × Nat)
  | [] => none
  | (j, a, b) :: rest => if j = i then some (a, b) else lookupGroup i rest

/-- `match.group(i)` for `i ≥ 1` (`none` = Python `None`). -/
def PyMatch.group (m : PyMatch) (i : Nat) : Option PyStr :=
  (lookupGroup i m.groups).map (fun ab => strSlice m.src ab.1 ab.2)

/-- Try the pattern at every start position, leftmost first. -/
def searchAux (r : REc) (s : PyStr) : PyStr → Nat → Option Char → Option PyMatch
  | rest, pos, prev =>
    match mc r rest pos prev [] (fun _ p' _ g' => some (p', g')) with
    | some (p', g') => some ⟨s, pos, p', g'⟩
    | none =>
      match rest with
      | [] => none
      | c :: rs => searchAux r s rs (pos + 1) (some c)

/-- `re.search(pattern, s)`. -/
def reSearch (r : RE) (s : PyStr) : Option PyMatch :=
  searchAux (r.compile s.length) s s 0 none

/-- `re.match(pattern, s)`: anchored at position 0. -/
def reMatch (r : RE) (s : PyStr) : Option PyMatch :=
  match mc (r.compile s.length) s 0 none [] (fun _ p' _ g' => some (p', g')) with
  | some (p', g') => some ⟨s, 0, p', g'⟩
  | none => none

/-- All matches, scanning left to right and resuming after each match
(after an empty match, resuming one character later) — the semantics of
`re.finditer`/`re.findall`. -/
def findIterAux (r : REc) (s : PyStr) : Nat → PyStr → Nat → Option Char → List PyMatch
  | 0, _, _, _ => []
  | fuel + 1, rest, pos, prev =>
    match searchAux r s rest pos prev with
    | none => []
    | some m =>
      if m.stopPos > m.startPos then
        m :: findIterAux r s fuel (rest.drop (m.stopPos - pos)) m.stopPos (s.get? (m.stopPos - 1))
      else
        match rest.drop (m.startPos - pos) with
        | [] => [m]
        | c :: rs => m :: findIterAux r s fuel rs (m.startPos + 1) (some c)

/-- `re.finditer(pattern, s)` as a list of match objects. -/
def reFinditer (r : RE) (s : PyStr) : List PyMatch :=
  findIterAux (r.compile s.length) s (s.length + 1) s 0 none

/-- `re.findall` for a pattern with no capturing group: the full match
strings. -/
def reFindallFull (r : RE) (s : PyStr) : List PyStr :=
  (reFinditer r s).map PyMatch.group0

/-- `len(re.findall(pattern, s))` — also correct for patterns with one
capturing group, where `findall` returns the group instead. -/
def reFindallCount (r : RE) (s : PyStr) : Nat := (reFinditer r s).length

/-- `re.split(pattern, s)` for a pattern with no capturing group: the
pieces of `s` between consecutive matches. -/
def reSplitAux (s : PyStr) : Nat → List PyMatch → List PyStr
  | prevEnd, [] => strSlice s prevEnd s.length :: []
  | prevEnd, m :: rest => strSlice s prevEnd m.startPos :: reSplitAux s m.stopPos rest

/-- `re.split(pattern, s)`. -/
def reSplit (r : RE) (s : PyStr) : List PyStr := reSplitAux s 0 (reFinditer r s)

/-! ### Pattern-building helpers -/

/-- Single literal character. -/
def rchar (c : Char) : RE := .cls (fun x => x = c)

/-- Single literal character under `re.IGNORECASE`. -/
def rcharCI (c : Char) : RE := .cls (fun x => pyLowerChar x = pyLowerChar c)

/-- Concatenation of a list of patterns. -/
def rcat (l : List RE) : RE := l.foldr .seq .eps

/-- Literal string. -/
def rlit (s : String) : RE := rcat (s.toList.map rchar)

/-- Literal string under `re.IGNORECASE`. -/
def rlitCI (s : String) : RE := rcat (s.toList.map rcharCI)

/-- Ordered alternation of a list of patterns (leftmost preferred). -/
def ralts : List RE → RE
  | [] => .fail
  | [x] => x
  | x :: xs => .alt x (ralts xs)

/-- `\d`. -/
def rdigit : RE := .cls Char.isDigit

/-- `\s`. -/
def rws : RE := .cls pyIsSpaceB

/-- `.` (any character except newline). -/
def rdot : RE := .cls (fun c => c ≠ '\n')

/-- `x?`. -/
def ropt (r : RE) : RE := .rep r 0 (some 1) true

/-- `x*`. -/
def rstar (r : RE) : RE := .rep r 0 none true

/-- `x+`. -/
def rplus (r : RE) : RE := .rep r 1 none true

/-- `x+?` (lazy). -/
def rplusLazy (r : RE) : RE := .rep r 1 none false

/-- `x{lo,hi}`. -/
def rrep (r : RE) (lo hi : Nat) : RE := .rep r lo (some hi) true

/-- `x{lo,}`. -/
def rrepMin (r : RE) (lo : Nat) : RE := .rep r lo none true

/-! ## `data_extractor.py` — class `DataExtractor` -/

namespace DataExtractor

/-- A budget line item: the dict
`{'code', 'description', 'unit', 'quantity', 'unit_price', 'total_price'}`
built by every extraction routine of `DataExtractor` (always exactly
these six keys). -/
structure Item where
  code : String
  description : String
  unit : String
  quantity : Option ℚ
  unit_price : Option ℚ
  total_price : Option ℚ
deriving DecidableEq, Repr

/-- The all-empty item initialised at the top of `_parse_table_columns`
and `_extract_item_with_patterns`. -/
def emptyItem : Item := ⟨"", "", "", none, none, none⟩

/-- Python truthiness of an optional `Decimal` (`None` and `0` falsy). -/
def truthyQ : Option ℚ → Bool
  | none => false
  | some q => q ≠ 0

/-- `x is not None and x > 0`. -/
def posQ : Option ℚ → Bool
  | none => false
  | some q => 0 < q

/-- `self.common_units`. -/
def common_units : List String :=
  ["m2", "m3", "kg", "ml", "l", "un", "hm", "km", "m", "pieza", "juego", "global",
   "metros", "kilogramos", "litros", "unidades", "metros cuadrados", "metros cúbicos"]

/-- Python regex `\$?\d{1,3}(?:,\d{3})*\.?\d{0,2}` (currency pattern 1). -/
def currency1 : RE :=
  rcat [ropt (rchar '$'), rrep rdigit 1 3, rstar (rcat [rchar ',', rrep rdigit 3 3]),
        ropt (rchar '.'), rrep rdigit 0 2]

/-- Python regex `\d{1,3}(?:\.\d{3})*,\d{2}` (currency pattern 2). -/
def currency2 : RE :=
  rcat [rrep rdigit 1 3, rstar (rcat [rchar '.', rrep rdigit 3 3]), rchar ',', rrep rdigit 2 2]

/-- Python regex `\b\d+\.\d{2}\b` (currency pattern 3). -/
def currency3 : RE :=
  rcat [.wordB, rplus rdigit, rchar '.', rrep rdigit 2 2, .wordB]

/-- `self.currency_patterns`. -/
def currency_patterns : List RE := [currency1, currency2, currency3]

/-- Python regex `\d+(?:\.\d+)?` (a number with an optional fraction). -/
def reNumber : RE := rcat [rplus rdigit, ropt (rcat [rchar '.', rplus rdigit])]

/-- Python regex `\d+(?:\.\d+)*` (a dotted code). -/
def reDottedCode : RE := rcat [rplus rdigit, rstar (rcat [rchar '.', rplus rdigit])]

/-- The unit alternation `m2|m3|kg|ml|l|un|m` under `re.IGNORECASE`,
in source order (alternation priority matters). -/
def reUnitsCI : RE :=
  ralts [rlitCI "m2", rlitCI "m3", rlitCI "kg", rlitCI "ml", rlitCI "l", rlitCI "un", rlitCI "m"]

/-- `price.replace('$', '').replace(',', '')`. -/
def stripCurrencyChars (l : PyStr) : PyStr := l.filter (fun c => c ≠ '$' && c ≠ ',')

/-- `_clean_text`: control characters to spaces, whitespace runs to a
single space, newline runs to a single newline, then `strip()`.  (The
second substitution already removes every newline, since `\s` matches
`\n`; the third is therefore the identity on its input.) -/
def clean_text (s : PyStr) : PyStr :=
  let s1 := s.map (fun c => if c.toNat ≤ 0x1f || (0x7f ≤ c.toNat && c.toNat ≤ 0x9f) then ' ' else c)
  let s2 := collapseRuns pyIsSpaceB ' ' s1
  let s3 := collapseRuns (fun c => c = '\n') '\n' s2
  pyStrip s3

/-- `_is_table_row`: at least 3 numbers and at least 4 whitespace-split
tokens. -/
def is_table_row (line : PyStr) : Bool :=
  reFindallCount reNumber line ≥ 3 && (pySplit line).length ≥ 4

/-- Python regex `^\s*\d+(?:\.\d+)*` used via `re.match`. -/
def reLeadingCode : RE := rcat [rstar rws, reDottedCode]

/-- Python regex `\d+(?:\.\d+)?\s*(?:m2|m3|kg|ml|l|un|m)\b` (IGNORECASE). -/
def reNumberWithUnit : RE := rcat [reNumber, rstar rws, reUnitsCI, .wordB]

/-- `_is_list_item`: a leading numeric code and either a number+unit or a
currency amount. -/
def is_list_item (line : PyStr) : Bool :=
  let has_code := (reMatch reLeadingCode line).isSome
  let has_number := (reSearch reNumberWithUnit line).isSome
  let has_price := currency_patterns.any (fun p => (reSearch p line).isSome)
  has_code && (has_number || has_price)

/-- Line-classification loop of `_detect_format` (`elif`: a table row is
not also counted as a list item). -/
def detectCounts : List PyStr → Nat × Nat
  | [] => (0, 0)
  | line :: rest =>
    let (t, l) := detectCounts rest
    if is_table_row line then (t + 1, l)
    else if is_list_item line then (t, l + 1)
    else (t, l)

/-- `_detect_format`.  The float thresholds `0.6` and `0.4` are modelled
as the exact rationals `3/5` and `2/5`; no concrete run in this
development sits near those boundaries. -/
def detect_format (lines : List PyStr) : String :=
  if lines.length < 3 then "unknown"
  else
    let (table_lines, list_lines) := detectCounts lines
    if (table_lines : ℚ) > (lines.length : ℚ) * (3 / 5) then "table"
    else if (list_lines : ℚ) > (lines.length : ℚ) * (2 / 5) then "list"
    else "mixed"

/-- Python regex `\s{2,}|\t`, the column delimiter of `_split_table_row`. -/
def reColumnSep : RE := .alt (rrepMin rws 2) (rchar '\t')

/-- `_split_table_row`: split the stripped line on the delimiter, strip
each piece, keep the non-empty ones. -/
def split_table_row (line : PyStr) : List PyStr :=
  ((reSplit reColumnSep (pyStrip line)).map pyStrip).filter (fun c => !c.isEmpty)

/-- Python regex `^\d+(?:\.\d+)*$` (a column that is purely a dotted
code), used via `re.match`. -/
def rePureCode : RE := rcat [reDottedCode, .eos]

/-- Python regex `(\d+(?:\.\d+)?)\s*(m2|m3|kg|ml|l|un|m)\b` (IGNORECASE):
quantity capture 1, unit capture 2. -/
def reQtyUnit : RE :=
  rcat [.grp 1 reNumber, rstar rws, .grp 2 reUnitsCI, .wordB]

/-- Python regex `\b(m2|m3|kg|ml|l|un|m)\b` (IGNORECASE): unit capture 1. -/
def reUnitOnly : RE := rcat [.wordB, .grp 1 reUnitsCI, .wordB]

/-- Code/description scan of `_parse_table_columns`: the first of the
first two columns that is purely a dotted code becomes the code and the
following column (when present) the description. -/
def tableCodeDesc : List PyStr → Option (PyStr × Option PyStr)
  | [] => none
  | col :: rest =>
    if (reMatch rePureCode col).isSome then some (col, rest.head?)
    else match rest with
      | [] => none
      | col2 :: rest2 =>
        if (reMatch rePureCode col2).isSome then some (col2, rest2.head?)
        else none

/-- Quantity/unit scan of `_parse_table_columns` over all columns; the
result is `none` when the `Decimal` conversion of a quantity capture
raises (the exception is caught by the method's `try/except`, which
returns Python `None`). -/
def tableQtyUnit : List PyStr → Option ℚ → String → Option (Option ℚ × String)
  | [], qty, unit => some (qty, unit)
  | col :: rest, qty, unit =>
    let step : Option (Option ℚ × String) :=
      match reSearch reQtyUnit col with
      | some m =>
        if !truthyQ qty then
          match (m.group 1).bind pyDecimal with
          | none => none
          | some q => some (some q, ((m.group 2).map (fun u => String.mk u)).getD unit)
        else some (qty, unit)
      | none => some (qty, unit)
    match step with
    | none => none
    | some (qty', unit') =>
      let unit'' :=
        match reSearch reUnitOnly col with
        | some m => if unit' = "" then ((m.group 1).map (fun u => String.mk u)).getD unit' else unit'
        | none => unit'
      tableQtyUnit rest qty' unit''

/-- Price collection of `_parse_table_columns`: every currency-pattern
match in every column, `$`/`,` stripped, `Decimal`-parsed, unparseable
matches skipped (their inner `try/except: pass`). -/
def tablePrices (columns : List PyStr) : List ℚ :=
  columns.flatMap (fun col =>
    currency_patterns.flatMap (fun pat =>
      (reFindallFull pat col).filterMap (fun price => pyDecimal (stripCurrencyChars price))))

/-- Insertion into a sorted list (ascending), for Python's `sorted`. -/
def sortedInsert (q : ℚ) : List ℚ → List ℚ
  | [] => [q]
  | x :: xs => if q ≤ x then q :: x :: xs else x :: sortedInsert q xs

/-- Python `sorted` on rationals. -/
def pySorted (l : List ℚ) : List ℚ := l.foldr sortedInsert []

/-- `_parse_table_columns`.  Its `try/except` returns `None` on any
internal failure; the only fallible steps are the `Decimal` conversion of
the quantity capture and the `columns[0]` access on an empty column
list. -/
def parse_table_columns (columns : List PyStr) : Option Item :=
  match tableCodeDesc columns with
  | some (code, descOpt) =>
    parseRest (String.mk code) (String.mk (descOpt.getD [])) columns
  | none =>
    match columns with
    | [] => none  -- `columns[0]` raises IndexError, caught by the method's try
    | col0 :: _ => parseRest "" (String.mk col0) columns
where
  parseRest (code description : String) (columns : List PyStr) : Option Item :=
    match tableQtyUnit columns none "" with
    | none => none
    | some (quantity, unit) =>
      let prices := tablePrices columns
      let item : Item :=
        if prices.length ≥ 2 then
          let ps := pySorted prices
          { code := code, description := description, unit := unit, quantity := quantity,
            unit_price := ps.head?, total_price := ps.getLast? }
        else if prices.length = 1 then
          { code := code, description := description, unit := unit, quantity := quantity,
            unit_price := prices.head?,
            total_price :=
              if truthyQ quantity then
                (quantity.bind (fun q => (prices.head?).map (fun p => q * p)))
              else none }
        else
          { code := code, description := description, unit := unit, quantity := quantity,
            unit_price := none, total_price := none }
      if item.description ≠ "" && (truthyQ item.quantity || truthyQ item.unit_price) then
        some item
      else none

/-- `_extract_from_table`: parse every line that splits into at least 4
columns. -/
def extract_from_table (lines : List PyStr) : List Item :=
  lines.foldl (fun acc line =>
    let columns := split_table_row line
    if columns.length ≥ 4 then
      match parse_table_columns columns with
      | some item => acc ++ [item]
      | none => acc
    else acc) []

/-- `_is_valid_item`: non-blank description, and a positive quantity or a
positive unit price. -/
def is_valid_item (item : Item) : Bool :=
  !(pyStrip item.description.toList).isEmpty && (posQ item.quantity || posQ item.unit_price)

/-- `' '.join(lines)` / `'\n'.join(lines)`. -/
def joinWith (sep : PyStr) (ls : List PyStr) : PyStr := List.intercalate sep ls

/-- Python regex `[$\d,\.]` (one currency character). -/
def rCurrencyChar : RE := .cls (fun c => c = '$' || c.isDigit || c = ',' || c = '.')

/-- List pattern 1, `re.search` with IGNORECASE:
`^(\d+(?:\.\d+)*)\s+(.+?)\s+(\d+(?:\.\d+)?)\s*(m2|m3|kg|ml|l|un|m)\s+([$\d,\.]+)`. -/
def listPat1 : RE :=
  rcat [.bos, .grp 1 reDottedCode, rplus rws, .grp 2 (rplusLazy rdot), rplus rws,
        .grp 3 reNumber, rstar rws, .grp 4 reUnitsCI, rplus rws, .grp 5 (rplus rCurrencyChar)]

/-- List pattern 2: `^(\d+)\s+(.+?)\s+(\d+(?:\.\d+)?)\s+([$\d,\.]+)`. -/
def listPat2 : RE :=
  rcat [.bos, .grp 1 (rplus rdigit), rplus rws, .grp 2 (rplusLazy rdot), rplus rws,
        .grp 3 reNumber, rplus rws, .grp 4 (rplus rCurrencyChar)]

/-- Case-insensitive ASCII letter (`[A-Z]` under IGNORECASE). -/
def rAlphaCI : RE := .cls (fun c => ('A' ≤ c && c ≤ 'Z') || ('a' ≤ c && c ≤ 'z'))

/-- List pattern 3:
`^([A-Z]{2,3}\d{2,4})\s+(.+?)\s+(\d+(?:\.\d+)?)\s*(m2|m3|kg|ml|l|un|m)`
(IGNORECASE, so the letters match either case). -/
def listPat3 : RE :=
  rcat [.bos, .grp 1 (rcat [rrep rAlphaCI 2 3, rrep rdigit 2 4]), rplus rws,
        .grp 2 (rplusLazy rdot), rplus rws, .grp 3 reNumber, rstar rws, .grp 4 reUnitsCI]

/-- Item construction shared by the three list patterns
(`_parse_list_item`, `groups = match.groups()`).  The `Decimal` call on
`groups[2]` is not wrapped in a local `try`, so a parse failure raises
out of the method. -/
def buildListItem (gs : List (Option PyStr)) : Except Unit Item := do
  let quantity : Option ℚ ←
    if gs.length > 2 then
      match (gs.get? 2).join with
      | some s =>
        match pyDecimal s with
        | some q => pure (some q)
        | none => Except.error ()
      | none => Except.error ()  -- Decimal(None) raises TypeError
    else pure none
  let unit : String :=
    match (gs.get? 3).join with
    | some u => if common_units.contains (String.mk u) then String.mk u else ""
    | none => ""
  let unit_price : Option ℚ :=
    if gs.length > 4 then
      match (gs.get? 4).join with
      | some s => pyDecimal (stripCurrencyChars s)  -- inner try/except: pass
      | none => none
    else none
  pure { code := String.mk ((gs.get? 0).join.getD [])
         description := String.mk (pyStrip ((gs.get? 1).join.getD []))
         unit := unit, quantity := quantity, unit_price := unit_price, total_price := none }

/-- `_parse_list_item`: strip, then try the three patterns in order;
first match wins. -/
def parse_list_item (line : PyStr) : Except Unit (Option Item) :=
  let l := pyStrip line
  if l.isEmpty then pure none
  else
    match reSearch listPat1 l with
    | some m => (buildListItem [m.group 1, m.group 2, m.group 3, m.group 4, m.group 5]).map some
    | none =>
      match reSearch listPat2 l with
      | some m => (buildListItem [m.group 1, m.group 2, m.group 3, m.group 4]).map some
      | none =>
        match reSearch listPat3 l with
        | some m => (buildListItem [m.group 1, m.group 2, m.group 3, m.group 4]).map some
        | none => pure none

/-- Loop body of `_extract_from_list`: `cur` is `current_item`. -/
def extractFromListAux : List PyStr → Option Item → List Item → Except Unit (List Item)
  | [], cur, items => pure (items ++ cur.toList)
  | line :: rest, cur, items => do
    let newItem ← parse_list_item line
    match newItem with
    | some n =>
      match cur with
      | some c => extractFromListAux rest (some n) (items ++ [c])
      | none => extractFromListAux rest (some n) items
    | none =>
      match cur with
      | some c =>
        let ls := pyStrip line
        if ls.length > 10 && !(match ls with | c0 :: _ => c0.isDigit | [] => false) then
          extractFromListAux rest
            (some { c with description := c.description ++ " " ++ String.mk ls }) items
        else extractFromListAux rest (some c) items
      | none => extractFromListAux rest none items

/-- `_extract_from_list`. -/
def extract_from_list (lines : List PyStr) : Except Unit (List Item) :=
  extractFromListAux lines none []

/-- Uppercase ASCII letter (`[A-Z]`, no IGNORECASE). -/
def rAlphaUpper : RE := .cls (fun c => 'A' ≤ c && c ≤ 'Z')

/-- Python regex `^\s*[A-Z]{2,3}\d{2,4}` used via `re.match` (no
IGNORECASE). -/
def reObraCode : RE := rcat [rstar rws, rrep rAlphaUpper 2 3, rrep rdigit 2 4]

/-- `_is_new_item_line`. -/
def is_new_item_line (line : PyStr) : Bool :=
  (reMatch reLeadingCode line).isSome || (reMatch reObraCode line).isSome

/-- Python regex `\b(\d+(?:\.\d+)*)\b` (a dotted code anywhere). -/
def reCodeAnywhere : RE := rcat [.wordB, .grp 1 reDottedCode, .wordB]

/-- Python regex `\b(\d+(?:\.\d+)?)\s*(m2|m3|kg|ml|l|un|m)\b`
(IGNORECASE) used in `_extract_item_with_patterns`. -/
def reQtyUnitB : RE :=
  rcat [.wordB, .grp 1 reNumber, rstar rws, .grp 2 reUnitsCI, .wordB]

/-- Python regex `[a-zA-Z].*` (description: from the first letter to the
end of the line). -/
def reDescTail : RE := rcat [rAlphaCI, rstar rdot]

/-- Price scan of `_extract_item_with_patterns`: first currency pattern
with matches; parse the first match, a parse failure moving on to the
next pattern (`try: ...; break; except: pass`). -/
def firstCurrencyPrice (text : PyStr) : List RE → Option ℚ
  | [] => none
  | pat :: rest =>
    match reFindallFull pat text with
    | [] => firstCurrencyPrice text rest
    | price :: _ =>
      match pyDecimal (stripCurrencyChars price) with
      | some q => some q
      | none => firstCurrencyPrice text rest

/-- `_extract_item_with_patterns`.  The `Decimal` call on the quantity
capture is unguarded, so its failure raises out of the function. -/
def extract_item_with_patterns (text : PyStr) : Except Unit (Option Item) := do
  let code : String :=
    match reSearch reCodeAnywhere text with
    | some m => String.mk ((m.group 1).getD [])
    | none => ""
  let qtyUnit : Option ℚ × String ←
    match reSearch reQtyUnitB text with
    | some m =>
      match (m.group 1).bind pyDecimal with
      | some q => pure (some q, String.mk ((m.group 2).getD []))
      | none => Except.error ()
    | none => pure (none, "")
  let unit_price : Option ℚ := firstCurrencyPrice text currency_patterns
  let description : String :=
    match reSearch reDescTail text with
    | some m => String.mk (pyStrip m.group0)
    | none => ""
  let item : Item :=
    { code := code, description := description, unit := qtyUnit.2,
      quantity := qtyUnit.1, unit_price := unit_price, total_price := none }
  pure (if is_valid_item item then some item else none)

/-- `_parse_buffered_lines`: join the buffered lines with spaces, try
`_parse_list_item`, fall back to `_extract_item_with_patterns`. -/
def parse_buffered_lines (lines : List PyStr) : Except Unit (Option Item) :=
  if lines.isEmpty then pure none
  else do
    let full := joinWith [' '] lines
    let item ← parse_list_item full
    match item with
    | some _ => pure item
    | none => extract_item_with_patterns full

/-- Loop of `_extract_with_line_breaks`: accumulate stripped lines in a
buffer, flushing it through `_parse_buffered_lines` whenever a new-item
line arrives. -/
def extractLineBreaksAux : List PyStr → List PyStr → List Item → Except Unit (List Item)
  | [], buffer, items =>
    if buffer.isEmpty then pure items
    else do
      let item ← parse_buffered_lines buffer
      pure (items ++ item.toList)
  | line :: rest, buffer, items => do
    let l := pyStrip line
    if l.isEmpty then extractLineBreaksAux rest buffer items
    else if is_new_item_line l && !buffer.isEmpty then do
      let item ← parse_buffered_lines buffer
      extractLineBreaksAux rest [l] (items ++ item.toList)
    else extractLineBreaksAux rest (buffer ++ [l]) items

/-- `_extract_with_line_breaks`. -/
def extract_with_line_breaks (lines : List PyStr) : Except Unit (List Item) :=
  extractLineBreaksAux lines [] []

/-- Loop of `_extract_with_context`: each non-blank line is parsed
together with its immediate neighbours (`lines[max(0,i-1):i+2]`). -/
def extractContextAux (orig : List PyStr) : List PyStr → Nat → Except Unit (List Item)
  | [], _ => pure []
  | line :: rest, i => do
    let tail ← extractContextAux orig rest (i + 1)
    if (pyStrip line).isEmpty then pure tail
    else do
      let start := i - 1  -- `max(0, i-1)` in ℕ
      let contextLines := (orig.drop start).take (i + 2 - start)
      let contextText := joinWith [' '] contextLines
      let item ← extract_item_with_patterns contextText
      match item with
      | some it => pure (if is_valid_item it then it :: tail else tail)
      | none => pure tail

/-- `_extract_with_context`. -/
def extract_with_context (lines : List PyStr) : Except Unit (List Item) :=
  extractContextAux lines lines 0

/-- Python regex `\d+(?:\.\d{2})?` (price field of the whole-text budget
patterns). -/
def rePrice2dp : RE := rcat [rplus rdigit, ropt (rcat [rchar '.', rrep rdigit 2 2])]

/-- Whole-text budget pattern 1 (`_extract_with_patterns`), IGNORECASE:
`(?P<code>\d+(?:\.\d+)*)\s+(?P<desc>.+?)\s+(?P<qty>\d+(?:\.\d+)?)\s*(?P<unit>m2|m3|kg|ml|l|un|m)\s+(?P<uprice>\d+(?:\.\d{2})?)\s+(?P<total>\d+(?:\.\d{2})?)`
with named groups numbered 1–6 in order. -/
def budgetPat1 : RE :=
  rcat [.grp 1 reDottedCode, rplus rws, .grp 2 (rplusLazy rdot), rplus rws,
        .grp 3 reNumber, rstar rws, .grp 4 reUnitsCI, rplus rws,
        .grp 5 rePrice2dp, rplus rws, .grp 6 rePrice2dp]

/-- Whole-text budget pattern 2:
`(?P<code>[A-Z]{2,3}\d{2,4})\s+(?P<desc>.+?)\s+(?P<qty>\d+(?:\.\d+)?)\s+(?P<unit>m2|m3|kg|ml|l|un|m)`
(named groups 1–4). -/
def budgetPat2 : RE :=
  rcat [.grp 1 (rcat [rrep rAlphaCI 2 3, rrep rdigit 2 4]), rplus rws,
        .grp 2 (rplusLazy rdot), rplus rws, .grp 3 reNumber, rplus rws, .grp 4 reUnitsCI]

/-- Whole-text budget pattern 3:
`(?P<desc>.+?)\s+(?P<qty>\d+(?:\.\d+)?)\s*(?P<unit>m2|m3|kg|ml|l|un|m)\s+(?P<price>\d+(?:\.\d{2})?)`
(named groups 1–4). -/
def budgetPat3 : RE :=
  rcat [.grp 1 (rplusLazy rdot), rplus rws, .grp 2 reNumber, rstar rws,
        .grp 3 reUnitsCI, rplus rws, .grp 4 rePrice2dp]

/-- Item construction of `_extract_with_patterns` from
`groups = match.groupdict()`.  Each argument is `none` when the pattern
has no group of that name (`'name' in groups` is false), `some g` when it
does (`g` is the captured string; every named group of these patterns
participates whenever the pattern matches).  The `Decimal` on `qty` is
unguarded and may raise; the price conversions sit in `try/except:
pass`. -/
def buildBudgetItem (code desc qty unit uprice total price : Option (Option PyStr)) :
    Except Unit Item := do
  let quantity : Option ℚ ←
    match qty.join with
    | some s =>
      if !s.isEmpty then
        match pyDecimal s with
        | some q => pure (some q)
        | none => Except.error ()
      else pure none
    | none => pure none
  let unit_price₀ : Option ℚ :=
    match uprice.join with
    | some s => if !s.isEmpty then pyDecimal s else none
    | none => none
  -- `if 'total' in groups and groups['total']: ... elif 'price' in groups and groups['price']: ...`
  let totalCond : Bool := match total.join with | some s => !s.isEmpty | none => false
  let total_price : Option ℚ :=
    if totalCond then (total.join.getD []) |> pyDecimal else none
  let unit_price : Option ℚ :=
    if totalCond then unit_price₀
    else
      match price.join with
      | some s =>
        if !s.isEmpty then
          match pyDecimal s with
          | some v => some v
          | none => unit_price₀
        else unit_price₀
      | none => unit_price₀
  pure { code := (code.join.map (fun s => String.mk s)).getD ""
         description := String.mk (pyStrip (desc.join.getD []))
         unit := (unit.join.map (fun s => String.mk s)).getD ""
         quantity := quantity, unit_price := unit_price, total_price := total_price }

/-- Append the valid items among a pattern's matches (the
`if self._is_valid_item(item): items.append(item)` loop). -/
def collectValidItems : List (Except Unit Item) → Except Unit (List Item)
  | [] => pure []
  | b :: rest => do
    let it ← b
    let tail ← collectValidItems rest
    pure (if is_valid_item it then it :: tail else tail)

/-- `_extract_with_patterns`: the three whole-text patterns applied by
`re.finditer` to the joined text, in order. -/
def extract_with_patterns (lines : List PyStr) : Except Unit (List Item) := do
  let full_text := joinWith ['\n'] lines
  let items1 ← collectValidItems ((reFinditer budgetPat1 full_text).map (fun m =>
    buildBudgetItem (some (m.group 1)) (some (m.group 2)) (some (m.group 3))
      (some (m.group 4)) (some (m.group 5)) (some (m.group 6)) none))
  let items2 ← collectValidItems ((reFinditer budgetPat2 full_text).map (fun m =>
    buildBudgetItem (some (m.group 1)) (some (m.group 2)) (some (m.group 3))
      (some (m.group 4)) none none none))
  let items3 ← collectValidItems ((reFinditer budgetPat3 full_text).map (fun m =>
    buildBudgetItem none (some (m.group 1)) (some (m.group 2))
      (some (m.group 3)) none none (some (m.group 4))))
  pure (items1 ++ items2 ++ items3)

/-- One step of `_extract_from_mixed`: keep the strategy result when it
yields strictly more items; a strategy that raises is skipped
(`except: continue`). -/
def mixedStep (acc : List Item) (r : Except Unit (List Item)) : List Item :=
  match r with
  | .ok l => if l.length > acc.length then l else acc
  | .error _ => acc

/-- `_extract_from_mixed`: line-break buffering, context windows, then
whole-text patterns; most candidates wins. -/
def extract_from_mixed (lines : List PyStr) : List Item :=
  mixedStep (mixedStep (mixedStep [] (extract_with_line_breaks lines))
    (extract_with_context lines)) (extract_with_patterns lines)

/-- The unit synonym table of `_clean_item`. -/
def unit_mapping : List (String × String) :=
  [("metros cuadrados", "m2"), ("metros cúbicos", "m3"), ("kilogramos", "kg"),
   ("litros", "l"), ("unidades", "un"), ("metros", "m")]

/-- Number of keys of the item dict inside `_clean_item`: every item
built by this module has exactly the six keys `code`, `description`,
`unit`, `quantity`, `unit_price`, `total_price`, so `len(cleaned)` is
always `6`. -/
def itemDictLen : Nat := 6

/-- `f"AUTO_{len(cleaned) + 1:03d}"` — the placeholder code assigned to
an item without one.  Since `len(cleaned)` is the constant `6`, this is
the constant string `"AUTO_007"`. -/
def autoCode : String :=
  "AUTO_" ++ (if itemDictLen + 1 < 10 then "00" else if itemDictLen + 1 < 100 then "0" else "")
    ++ toString (itemDictLen + 1)

/-- `_clean_item`: collapse description whitespace, canonicalise the
unit, derive the total price, and fill in a placeholder code. -/
def clean_item (item : Item) : Item :=
  let description := String.mk (pyStrip (collapseRuns pyIsSpaceB ' ' item.description.toList))
  let lowered := String.mk (pyLower item.unit.toList)
  let unit :=
    match unit_mapping.lookup lowered with
    | some v => v
    | none => item.unit
  let total_price :=
    if truthyQ item.quantity && truthyQ item.unit_price && !truthyQ item.total_price then
      item.quantity.bind (fun q => item.unit_price.map (fun p => q * p))
    else item.total_price
  let code := if item.code = "" then autoCode else item.code
  { code := code, description := description, unit := unit,
    quantity := item.quantity, unit_price := item.unit_price, total_price := total_price }

/-- The deduplication key of `_validate_and_clean_items`:
`f"{item.get('code', '')}_{item.get('description', '')[:50]}"`. -/
def dedupKey (item : Item) : String :=
  item.code ++ "_" ++ String.mk (item.description.toList.take 50)

/-- Deduplication loop: keep the first occurrence of each key. -/
def dedupAux : List String → List Item → List Item
  | _, [] => []
  | seen, item :: rest =>
    if seen.contains (dedupKey item) then dedupAux seen rest
    else item :: dedupAux (dedupKey item :: seen) rest

/-- `_validate_and_clean_items`: keep the valid candidates, clean each,
then deduplicate by `(code, first 50 characters of description)`. -/
def validate_and_clean_items (items : List Item) : List Item :=
  dedupAux [] ((items.filter is_valid_item).map clean_item)

/-- Strategy dispatch of `extract_budget_items` on the resolved format
label. -/
def extract_strategy (fmt : String) (lines : List PyStr) : Except Unit (List Item) :=
  if fmt = "table" then pure (extract_from_table lines)
  else if fmt = "list" then extract_from_list lines
  else if fmt = "mixed" then pure (extract_from_mixed lines)
  else extract_with_patterns lines

/-- The format label `extract_budget_items` works with: the hint when
one is given and truthy (`if not format_type:` — both `None` and `""`
are falsy), the detected format otherwise. -/
def resolve_format (format_type : Option String) (lines : List PyStr) : String :=
  match format_type with
  | none => detect_format lines
  | some f => if f = "" then detect_format lines else f

/-- Body of `extract_budget_items` (inside its `try`): clean the text,
split into lines, resolve the format, dispatch to the matching
extraction strategy, and validate/clean the result.  An uncaught
exception from a strategy surfaces as `Except.error`. -/
def extract_core (text : String) (format_type : Option String) : Except Unit (List Item) :=
  let lines := pySplitNl (clean_text text.toList)
  (extract_strategy (resolve_format format_type lines) lines).map validate_and_clean_items

/-- `extract_budget_items`: the whole body runs under
`try: ... except Exception: return []`. -/
def extract_budget_items (text : String) (format_type : Option String) : List Item :=
  match extract_core text format_type with
  | .ok items => items
  | .error _ => []

end DataExtractor

/-! ## `format_detector.py` — class `FormatDetector` -/

namespace FormatDetector

/-- The structure-analysis dict built by `_analyze_structure` (fields in
insertion order). -/
structure StructureAnalysis where
  total_lines : Nat
  empty_lines : Nat
  header_lines : Nat
  table_lines : Nat
  list_items : Nat
  section_headers : Nat
  has_table_structure : Bool
  has_list_structure : Bool
  average_line_length : ℚ
deriving DecidableEq, Repr

/-- The content-analysis dict built by `_analyze_content` (fields in
insertion order).  Note that it has no `has_table_structure` or
`has_list_structure` key — those live in the structure dict. -/
structure ContentAnalysis where
  has_currency_symbols : Bool
  has_decimal_numbers : Bool
  has_thousand_separators : Bool
  has_units : Bool
  has_chapter_headers : Bool
  has_totals : Bool
  has_breakdown : Bool
  currency_count : Nat
  number_count : Nat
  unit_count : Nat
deriving DecidableEq, Repr

/-- `content.get('has_table_structure')`: the content dict has no such
key (it is produced by `_analyze_structure` into the structure dict), so
`dict.get` returns `None`, which is falsy. -/
def contentGetHasTableStructure (_ : ContentAnalysis) : Option Bool := none

/-- `content.get('has_list_structure')`: likewise absent from the
content dict. -/
def contentGetHasListStructure (_ : ContentAnalysis) : Option Bool := none

/-- Python truthiness of `dict.get`'s optional result. -/
def optBoolTruthy : Option Bool → Bool
  | none => false
  | some b => b

/-- `FormatDetector._is_table_line`: at least 2 numbers and at least 4
whitespace-split tokens. -/
def fdIsTableLine (line : PyStr) : Bool :=
  reFindallCount DataExtractor.reNumber line ≥ 2 && (pySplit line).length ≥ 4

/-- Python regex `^\s*\d+\s*[.-]\s+` (second list-item pattern of the
detector). -/
def reNumDotDash : RE :=
  rcat [rstar rws, rplus rdigit, rstar rws, .cls (fun c => c = '.' || c = '-'), rplus rws]

/-- Python regex `^\s*\d+(?:\.\d+)*\s+`. -/
def reLeadingCodeSp : RE := rcat [rstar rws, DataExtractor.reDottedCode, rplus rws]

/-- Python regex `^\s*[A-Z]{2,3}\d{2,4}\s+` (no IGNORECASE). -/
def reObraCodeSp : RE := rcat [DataExtractor.reObraCode, rplus rws]

/-- `FormatDetector._is_list_item`. -/
def fdIsListItem (line : PyStr) : Bool :=
  (reMatch reLeadingCodeSp line).isSome || (reMatch reNumDotDash line).isSome ||
  (reMatch reObraCodeSp line).isSome

/-- `FormatDetector._is_section_header`: short, and uppercase or holding
a section keyword. -/
def fdIsSectionHeader (line : PyStr) : Bool :=
  let l := pyStrip line
  l.length < 50 &&
    (pyIsUpperStr l ||
      ["CAPÍTULO", "CHAPTER", "SECCIÓN", "SECTION"].any (fun k => containsSub l k.toList))

/-- Header-keyword test of the `_analyze_structure` loop. -/
def fdIsHeaderLine (line : PyStr) : Bool :=
  ["ITEM", "CÓDIGO", "DESCRIPCIÓN", "CANTIDAD", "PRECIO"].any
    (fun k => containsSub (pyUpper line) k.toList)

/-- Line-classification loop of `_analyze_structure` (each test is an
independent `if`; blank lines are skipped). -/
def analyzeLinesAux : List PyStr → Nat × Nat × Nat × Nat
  | [] => (0, 0, 0, 0)
  | line :: rest =>
    let (h, t, l, s) := analyzeLinesAux rest
    let line := pyStrip line
    if line.isEmpty then (h, t, l, s)
    else
      ((if fdIsHeaderLine line then h + 1 else h),
       (if fdIsTableLine line then t + 1 else t),
       (if fdIsListItem line then l + 1 else l),
       (if fdIsSectionHeader line then s + 1 else s))

/-- `_analyze_structure`.  The float thresholds `0.3` and `0.4` are
modelled as the exact rationals `3/10` and `2/5`. -/
def analyze_structure (lines : List PyStr) : StructureAnalysis :=
  let (h, t, l, s) := analyzeLinesAux lines
  { total_lines := lines.length
    empty_lines := (lines.filter (fun ln => (pyStrip ln).isEmpty)).length
    header_lines := h
    table_lines := t
    list_items := l
    section_headers := s
    has_table_structure := (t : ℚ) > (lines.length : ℚ) * (3 / 10)
    has_list_structure := (l : ℚ) > (lines.length : ℚ) * (2 / 5)
    average_line_length :=
      if lines.isEmpty then 0
      else ((lines.map List.length).sum : ℚ) / (lines.length : ℚ) }

/-- Python regex `\d+\.\d{2}`. -/
def reDec2 : RE := rcat [rplus rdigit, rchar '.', rrep rdigit 2 2]

/-- Python regex `\d,\d{3}`. -/
def reThousands : RE := rcat [rdigit, rchar ',', rrep rdigit 3 3]

/-- Python regex `\d+\.\d+`. -/
def reDecAny : RE := rcat [rplus rdigit, rchar '.', rplus rdigit]

/-- Python regex `[$€]`. -/
def reCurrencySym : RE := .cls (fun c => c = '$' || c = '€')

/-- Python regex `CAPÍTULO|CHAPTER` (no IGNORECASE). -/
def reChapterKw : RE := ralts [rlit "CAPÍTULO", rlit "CHAPTER"]

/-- Python regex `\b(m2|m3|kg|ml|l|un)\b` (IGNORECASE). -/
def reUnitCount : RE :=
  rcat [.wordB,
        .grp 1 (ralts [rlitCI "m2", rlitCI "m3", rlitCI "kg", rlitCI "ml", rlitCI "l", rlitCI "un"]),
        .wordB]

/-- `_analyze_content` over the (already upper-cased) document text. -/
def analyze_content (text : PyStr) : ContentAnalysis :=
  { has_currency_symbols := containsSub text ['$'] || containsSub text ['€']
    has_decimal_numbers := reFindallCount reDec2 text > 0
    has_thousand_separators := reFindallCount reThousands text > 0
    has_units := ["m2", "m3", "kg", "ml", "l", "un"].any
      (fun u => containsSub (pyLower text) u.toList)
    has_chapter_headers := reFindallCount reChapterKw text > 0
    has_totals := ["TOTAL", "SUBTOTAL", "SUB-TOTAL"].any (fun w => containsSub text w.toList)
    has_breakdown := ["MATERIALES", "MANO DE OBRA", "EQUIPO"].any (fun w => containsSub text w.toList)
    currency_count := reFindallCount reCurrencySym text
    number_count := reFindallCount reDecAny text
    unit_count := reFindallCount reUnitCount text }

/-- `repr` of a Python `bool`. -/
def pyReprBool (b : Bool) : String := if b then "True" else "False"

/-- `repr`/`str` of the Python `float` values that occur as
`average_line_length` in this development: for a float whose value is an
integer or a short terminating decimal, CPython's shortest-round-trip
repr prints that exact decimal, which is what this function produces.
(The values evaluated by the theorems below are integers.) -/
def pyFloatRepr (q : ℚ) : String :=
  if q.den = 1 then toString q.num ++ ".0"
  else
    match (List.range 18).find? (fun k => (q * (10 : ℚ) ^ k).den = 1) with
    | some k =>
      let scaled := (q * (10 : ℚ) ^ k).num.natAbs
      let digits := toString scaled
      let digits := if digits.length ≤ k then
        String.mk (List.replicate (k + 1 - digits.length) '0') ++ digits else digits
      (if q < 0 then "-" else "") ++ String.mk (digits.toList.take (digits.length - k)) ++
        "." ++ String.mk (digits.toList.drop (digits.length - k))
    | none => "<nonterminating>"

/-- `str(structure_dict)`: the Python `repr` of the structure-analysis
dict, keys in insertion order. -/
def reprStructure (s : StructureAnalysis) : String :=
  "\x7b'total_lines': " ++ toString s.total_lines ++
  ", 'empty_lines': " ++ toString s.empty_lines ++
  ", 'header_lines': " ++ toString s.header_lines ++
  ", 'table_lines': " ++ toString s.table_lines ++
  ", 'list_items': " ++ toString s.list_items ++
  ", 'section_headers': " ++ toString s.section_headers ++
  ", 'has_table_structure': " ++ pyReprBool s.has_table_structure ++
  ", 'has_list_structure': " ++ pyReprBool s.has_list_structure ++
  ", 'average_line_length': " ++ pyFloatRepr s.average_line_length ++ "\x7d"

/-- `str(content_dict)`: the Python `repr` of the content-analysis
dict. -/
def reprContent (c : ContentAnalysis) : String :=
  "\x7b'has_currency_symbols': " ++ pyReprBool c.has_currency_symbols ++
  ", 'has_decimal_numbers': " ++ pyReprBool c.has_decimal_numbers ++
  ", 'has_thousand_separators': " ++ pyReprBool c.has_thousand_separators ++
  ", 'has_units': " ++ pyReprBool c.has_units ++
  ", 'has_chapter_headers': " ++ pyReprBool c.has_chapter_headers ++
  ", 'has_totals': " ++ pyReprBool c.has_totals ++
  ", 'has_breakdown': " ++ pyReprBool c.has_breakdown ++
  ", 'currency_count': " ++ toString c.currency_count ++
  ", 'number_count': " ++ toString c.number_count ++
  ", 'unit_count': " ++ toString c.unit_count ++ "\x7d"

/-- A template of `known_formats`: display name and indicator regexes. -/
structure FormatInfo where
  name : String
  indicators : List RE

/-- `known_formats['standard_table']`, indicators
`Item|Código|Code`, `Descripción|Description`, `Cantidad|Quantity|Qty`,
`Unidad|Unit`, `Precio|Price|Cost`, `Total` (searched with
IGNORECASE). -/
def standard_table : FormatInfo :=
  { name := "Tabla Estándar"
    indicators :=
      [ralts [rlitCI "Item", rlitCI "Código", rlitCI "Code"],
       ralts [rlitCI "Descripción", rlitCI "Description"],
       ralts [rlitCI "Cantidad", rlitCI "Quantity", rlitCI "Qty"],
       ralts [rlitCI "Unidad", rlitCI "Unit"],
       ralts [rlitCI "Precio", rlitCI "Price", rlitCI "Cost"],
       rlitCI "Total"] }

/-- `known_formats['chapters_list']`. -/
def chapters_list : FormatInfo :=
  { name := "Lista por Capítulos"
    indicators :=
      [ralts [rlitCI "Capítulo", rlitCI "Chapter", rlitCI "CAP"],
       rcat [rplus rdigit, rchar '.', rplus rdigit, rchar '.', rplus rdigit],
       rcat [.wordB, rplus rdigit, rchar '.', rplus rdigit, .wordB],
       rcat [.wordB, rplus rdigit, rstar rws, .cls (fun c => c = '.' || c = '-')]] }

/-- `known_formats['unit_prices']`. -/
def unit_prices : FormatInfo :=
  { name := "Precios Unitarios"
    indicators :=
      [ralts [rlitCI "Precio Unitario", rlitCI "Unit Price"],
       rcat [rlitCI "PU", rstar rws, rchar '='],
       rcat [rchar '$', rstar rws, rplus rdigit, rchar '.', rrep rdigit 2 2],
       rcat [rplus rdigit, rchar '.', rrep rdigit 2 2, rstar rws, rchar '€']] }

/-- `known_formats['detailed_breakdown']`. -/
def detailed_breakdown : FormatInfo :=
  { name := "Desglose Detallado"
    indicators :=
      [ralts [rlitCI "Materiales", rlitCI "Materials"],
       ralts [rlitCI "Mano de Obra", rlitCI "Labor"],
       ralts [rlitCI "Equipo", rlitCI "Equipment"],
       ralts [rlitCI "Indirectos", rlitCI "Overhead"]] }

/-- `self.known_formats`, in insertion order. -/
def known_formats : List FormatInfo :=
  [standard_table, chapters_list, unit_prices, detailed_breakdown]

/-- `_calculate_format_score`: fraction of indicators found (with
IGNORECASE) in `str(structure) + str(content)`, template-specific
bonuses, capped at `1.0`.  The third Python parameter (`patterns`) is
unused by the method body and omitted here.  Float constants `0.3`,
`0.2`, `1.0` are modelled as `3/10`, `1/5`, `1`. -/
def calculate_format_score (fi : FormatInfo) (s : StructureAnalysis) (c : ContentAnalysis) : ℚ :=
  let subject := (reprStructure s ++ reprContent c).toList
  let matched := (fi.indicators.filter (fun ind => (reSearch ind subject).isSome)).length
  let score₀ : ℚ := matched
  let score₁ := if !fi.indicators.isEmpty then score₀ / (fi.indicators.length : ℚ) else score₀
  let score₂ :=
    if optBoolTruthy (contentGetHasTableStructure c) &&
        containsSub (pyLower fi.name.toList) "table".toList then
      score₁ + 3 / 10
    else score₁
  let score₃ :=
    if optBoolTruthy (contentGetHasListStructure c) &&
        containsSub (pyLower fi.name.toList) "list".toList then
      score₂ + 3 / 10
    else score₂
  let score₄ :=
    if c.has_breakdown && containsSub (pyLower fi.name.toList) "detallado".toList then
      score₃ + 1 / 5
    else score₃
  min score₄ 1

end FormatDetector

/-! ## `pdf_reader.py` — class `PDFReader` -/

namespace PDFReader

/-- One entry of `pages_text` as built in `read_pdf`:
`{'page_number': i+1, 'text': text, 'text_length': len(text)}`. -/
structure PageText where
  page_number : Nat
  text : String
  text_length : Nat
deriving DecidableEq, Repr

/-- The page-building loop of `read_pdf`
(`for page_num in range(len(doc)): ... pages_text.append({...})`),
starting at page index `i`. -/
def mkPagesFrom (i : Nat) : List String → List PageText
  | [] => []
  | t :: rest => ⟨i + 1, t, t.toList.length⟩ :: mkPagesFrom (i + 1) rest

/-- The `pages_text` list built by `read_pdf` from the per-page
extracted texts. -/
def mkPages (texts : List String) : List PageText := mkPagesFrom 0 texts

/-- `_detect_scanned_pdf`: an empty page list counts as scanned;
otherwise scanned iff the average `text_length` per page is strictly
below 100 (Python float division, modelled exactly in `ℚ`). -/
def detect_scanned_pdf (pages : List PageText) : Bool :=
  if pages.isEmpty then true
  else ((pages.map PageText.text_length).sum : ℚ) / (pages.length : ℚ) < 100

end PDFReader

/-! ## `ocr_processor.py` — class `OCRProcessor` -/

namespace OCRProcessor

/-- One recognizer token, i.e. index `i` of the parallel arrays
`ocr_data['conf'] / ['text'] / ['left'] / ['top'] / ['width'] /
['height'] / ['line_num']` returned by `pytesseract.image_to_data` (all
arrays have the length of `ocr_data['level']`). -/
structure OcrToken where
  conf : ℚ
  text : String
  left : Int
  top : Int
  width : Int
  height : Int
  line_num : Int
deriving DecidableEq, Repr

/-- The `word_info` dict of `_process_ocr_data`. -/
structure WordInfo where
  text : String
  confidence : ℚ
  x : Int
  y : Int
  width : Int
  height : Int
  line_num : Int
deriving DecidableEq, Repr

/-- One entry of the `line_list` built by `_process_ocr_data`. -/
structure LineEntry where
  line_number : Int
  text : String
  words : List WordInfo
  y_position : Int
deriving DecidableEq, Repr

/-- The dict returned by `_process_ocr_data`. -/
structure ProcessedData where
  words : List WordInfo
  lines : List LineEntry
  average_confidence : ℚ
deriving DecidableEq, Repr

/-- Stable insertion respecting earlier-inserted equal keys (Python's
`list.sort` is stable). -/
def stableInsertBy (le : α → α → Bool) (x : α) : List α → List α
  | [] => [x]
  | y :: ys => if le y x then y :: stableInsertBy le x ys else x :: y :: ys

/-- Stable sort (insertion sort, processing the list left to right). -/
def stableSortBy (le : α → α → Bool) (l : List α) : List α :=
  l.foldl (fun acc x => stableInsertBy le x acc) []

/-- `lines[line_key].append(word_info)` on the insertion-ordered dict of
lines. -/
def assocAppend (k : Int) (w : WordInfo) : List (Int × List WordInfo) → List (Int × List WordInfo)
  | [] => [(k, [w])]
  | (k', ws) :: rest =>
    if k' = k then (k', ws ++ [w]) :: rest else (k', ws) :: assocAppend k w rest

/-- Accumulating loop of `_process_ocr_data`, processing tokens left to
right exactly as the Python `for` loop does: keep tokens with
confidence strictly above 0 whose stripped text is non-empty; append
their word records, group them by `line_num` (insertion-ordered dict),
and sum their (original) confidences. -/
def processLoop (acc : List WordInfo × List (Int × List WordInfo) × ℚ × Nat) :
    List OcrToken → List WordInfo × List (Int × List WordInfo) × ℚ × Nat
  | [] => acc
  | tok :: rest =>
    let word : WordInfo :=
      { text := String.mk (pyStrip tok.text.toList), confidence := tok.conf,
        x := tok.left, y := tok.top, width := tok.width, height := tok.height,
        line_num := tok.line_num }
    if tok.conf > 0 && word.text ≠ "" then
      processLoop (acc.1 ++ [word], assocAppend tok.line_num word acc.2.1,
        acc.2.2.1 + tok.conf, acc.2.2.2 + 1) rest
    else processLoop acc rest

/-- `_process_ocr_data`. -/
def process_ocr_data (toks : List OcrToken) : ProcessedData :=
  let p := processLoop ([], [], 0, 0) toks
  let words := p.1
  let linesDict := p.2.1
  let total := p.2.2.1
  let valid := p.2.2.2
  let average : ℚ := if valid > 0 then total / (valid : ℚ) else 0
  let wordsSorted := stableSortBy
    (fun a b => a.y < b.y || (a.y = b.y && a.x ≤ b.x)) words
  let keysSorted := stableSortBy (fun a b => a ≤ b) (linesDict.map Prod.fst)
  let lineList := keysSorted.filterMap (fun k =>
    (linesDict.lookup k).map (fun ws =>
      let lws := stableSortBy (fun a b => a.x ≤ b.x) ws
      { line_number := k
        text := String.mk (DataExtractor.joinWith [' '] (lws.map (fun w => w.text.toList)))
        words := lws
        y_position := match lws.head? with | some w => w.y | none => 0 }))
  { words := wordsSorted, lines := lineList, average_confidence := average }

/-- A `batch_process_images` entry: either the full per-page result or
the error dict `{'image_path': ..., 'error': ..., 'text': '',
'confidence': 0}` recorded when that page's processing raised. -/
inductive BatchEntry (ρ : Type) where
  | ok (result : ρ)
  | err (image_path : String) (error : String) (text : String) (confidence : ℚ)
deriving DecidableEq, Repr

/-- `batch_process_images`, parameterised by the per-page processor
`π` (`self.process_image` wrapping the external OCR backend, which may
raise): each page is processed inside its own `try/except`, a failure
being recorded as an error entry with empty text and zero confidence. -/
def batch_process_images (π : String → Except String ρ) (paths : List String) :
    List (BatchEntry ρ) :=
  paths.map (fun p =>
    match π p with
    | .ok r => .ok r
    | .error e => .err p e "" 0)

end OCRProcessor

/-! ## Derived predicates and concrete inputs used by the theorems -/

/-- A string with at least one non-whitespace character. -/
def hasNonSpace (l : PyStr) : Bool := l.any (fun c => !pyIsSpaceB c)

/-- First character (if any) is not whitespace. -/
def headNotSpace : PyStr → Bool
  | [] => true
  | c :: _ => !pyIsSpaceB c

/-- Last character (if any) is not whitespace. -/
def lastNotSpace (l : PyStr) : Bool := headNotSpace l.reverse

/-- Whitespace-collapsed normal form: every whitespace character is a
single `' '` not followed by further whitespace. -/
def collapsedOk : PyStr → Bool
  | [] => true
  | c :: rest => (!pyIsSpaceB c || (c = ' ' && headNotSpace rest)) && collapsedOk rest

/-- Indicator-match count of the `standard_table` template against the
summary string of a structure/content analysis pair (the score fraction
numerator of `_calculate_format_score`). -/
def FormatDetector.standardTableMatchCount
    (s : FormatDetector.StructureAnalysis) (c : FormatDetector.ContentAnalysis) : Nat :=
  (FormatDetector.standard_table.indicators.filter (fun ind =>
    (reSearch ind (FormatDetector.reprStructure s ++ FormatDetector.reprContent c).toList).isSome)).length

/-- Modelled from the spec: "an aggregate confidence (mean token
confidence across all tokens with confidence > 0)" — the claimed
aggregate, filtering on positive confidence only.  Stated for comparison
with `process_ocr_data`, whose filter also requires non-blank token
text. -/
def OCRProcessor.specAggregateConfidence (toks : List OCRProcessor.OcrToken) : ℚ :=
  let f := toks.filter (fun t => t.conf > 0)
  if f.isEmpty then 0 else (f.map OCRProcessor.OcrToken.conf).sum / (f.length : ℚ)

/-- The token filter actually applied by `_process_ocr_data`. -/
def OCRProcessor.keptToken (t : OCRProcessor.OcrToken) : Bool :=
  t.conf > 0 && String.mk (pyStrip t.text.toList) ≠ ""

/-- C1/C2 concrete input: a list-format line carrying a quantity and a
unit but no price. -/
def c1text : String := "AB12 Excavacion manual 20 m3"

/-- The single line item extracted from `c1text` under format `list`. -/
def c1item : DataExtractor.Item :=
  ⟨"AB12", "Excavacion manual", "m3", some 20, none, none⟩

/-- C3 concrete input: end-to-end scenario 1 of the spec. -/
def c3text : String := "01.01.01  Demolición de concreto  10.00 m3  150.00  1500.00"

/-- C4 concrete input: two codeless pattern-extractable items. -/
def c4text : String := "Excavacion manual 20 m3 150.00 Relleno compactado 30 m2 200.00"

/-- C6 concrete input: three table-shaped lines (table ratio 1 > 30%). -/
def c6text : String := "1 2 3 4.5\n1 2 3 4.5\n1 2 3 4.5"

/-- The upper-cased line list the detector derives from `c6text`. -/
def c6lines : List PyStr := pySplitNl (pyUpper c6text.toList)

/-- A page text of exactly 100 characters (C7 witness). -/
def c7page : String := String.mk (List.replicate 100 'a')

/-- C8 concrete tokens: one whitespace-only token with positive
confidence, one normal token. -/
def c8tok1 : OCRProcessor.OcrToken := ⟨50, " ", 1, 2, 3, 4, 1⟩

/-- Second C8 token. -/
def c8tok2 : OCRProcessor.OcrToken := ⟨80, "abc", 5, 2, 3, 4, 1⟩

/-- C9 witness page processor: fails on path `"bad"`, succeeds
otherwise. -/
def c9proc : String → Except String Nat :=
  fun p => if p = "bad" then Except.error "boom" else Except.ok 0

/-! ## Lemmas about whitespace normalisation -/

theorem mem_dropWhile_of_mem {p : Char → Bool} {c : Char} (hc : p c = false) :
    ∀ {l : PyStr}, c ∈ l → c ∈ l.dropWhile p := by
  intro l h
  induction l with
  | nil => simp at h
  | cons d rest ih =>
    rw [List.dropWhile_cons]
    by_cases hd : p d = true
    · simp only [hd, if_true]
      rcases List.mem_cons.mp h with rfl | hmem
      · rw [hd] at hc; cases hc
      · exact ih hmem
    · simp only [Bool.not_eq_true] at hd
      simp [hd]
      exact List.mem_cons.mp h

theorem mem_pyStrip_of_mem {c : Char} (hc : pyIsSpaceB c = false) {l : PyStr}
    (h : c ∈ l) : c ∈ pyStrip l := by
  unfold pyStrip pyLstrip pyRstrip
  apply mem_dropWhile_of_mem hc
  rw [List.mem_reverse]
  apply mem_dropWhile_of_mem hc
  rw [List.mem_reverse]
  exact h

theorem mem_collapse_of_mem {c : Char} (hc : pyIsSpaceB c = false) :
    ∀ (l : PyStr) (b : Bool), c ∈ l → c ∈ collapseRunsAux pyIsSpaceB ' ' b l := by
  intro l
  induction l with
  | nil => intro b h; simp at h
  | cons d rest ih =>
    intro b h
    unfold collapseRunsAux
    by_cases hd : pyIsSpaceB d = true
    · have hmem : c ∈ rest := by
        rcases List.mem_cons.mp h with rfl | hmem
        · rw [hd] at hc; cases hc
        · exact hmem
      by_cases hb : b
      · simp [hd, hb]; exact ih true hmem
      · simp only [Bool.not_eq_true] at hb
        simp [hd, hb]
        exact Or.inr (ih true hmem)
    · simp only [Bool.not_eq_true] at hd
      simp [hd]
      rcases List.mem_cons.mp h with rfl | hmem
      · exact Or.inl rfl
      · exact Or.inr (ih false hmem)

theorem pyStrip_ne_nil_of_hasNonSpace {l : PyStr} (h : hasNonSpace l = true) :
    pyStrip l ≠ [] := by
  simp only [hasNonSpace, List.any_eq_true, Bool.not_eq_true'] at h
  obtain ⟨c, hcl, hc⟩ := h
  exact List.ne_nil_of_mem (mem_pyStrip_of_mem hc hcl)

theorem hasNonSpace_of_pyStrip_ne_nil {l : PyStr} (h : pyStrip l ≠ []) :
    hasNonSpace l = true := by
  by_contra hn
  apply h
  simp only [hasNonSpace, List.any_eq_true, Bool.not_eq_true', not_exists, not_and] at hn
  have hall : ∀ c ∈ l, pyIsSpaceB c = true := by
    intro c hcl
    by_contra hns
    exact absurd (by simpa using hns) (by simpa using hn c hcl)
  have hr : pyRstrip l = [] := by
    unfold pyRstrip
    have : l.reverse.dropWhile pyIsSpaceB = [] := by
      rw [List.dropWhile_eq_nil_iff]
      intro c hcl
      exact hall c (List.mem_reverse.mp hcl)
    rw [this]; rfl
  unfold pyStrip
  rw [hr]; rfl

/-- Key fact for the validity invariant: if a description has some
non-whitespace character, its cleaned version (collapse + strip) still
strips to a non-empty string. -/
theorem strip_clean_ne_nil {s : PyStr} (h : pyStrip s ≠ []) :
    pyStrip (pyStrip (collapseRuns pyIsSpaceB ' ' s)) ≠ [] := by
  have h1 := hasNonSpace_of_pyStrip_ne_nil h
  simp only [hasNonSpace, List.any_eq_true, Bool.not_eq_true'] at h1
  obtain ⟨c, hcl, hc⟩ := h1
  have h2 : c ∈ collapseRuns pyIsSpaceB ' ' s := mem_collapse_of_mem hc s false hcl
  have h3 : c ∈ pyStrip (collapseRuns pyIsSpaceB ' ' s) := mem_pyStrip_of_mem hc h2
  exact List.ne_nil_of_mem (mem_pyStrip_of_mem hc h3)

theorem collapse_ok : ∀ (l : PyStr),
    (∀ b, collapsedOk (collapseRunsAux pyIsSpaceB ' ' b l) = true) ∧
      headNotSpace (collapseRunsAux pyIsSpaceB ' ' true l) = true := by
  intro l
  induction l with
  | nil => exact ⟨fun _ => rfl, rfl⟩
  | cons c rest ih =>
    by_cases hc : pyIsSpaceB c = true
    · refine ⟨fun b => ?_, ?_⟩
      · cases b with
        | true => simpa [collapseRunsAux, hc] using (ih.1 true)
        | false =>
          simp only [collapseRunsAux, hc, if_true, if_false, Bool.false_eq_true]
          unfold collapsedOk
          simp [ih.1 true, ih.2]
      · simpa [collapseRunsAux, hc] using ih.2
    · simp only [Bool.not_eq_true] at hc
      refine ⟨fun b => ?_, ?_⟩
      · simp only [collapseRunsAux, hc, Bool.false_eq_true, if_false]
        unfold collapsedOk
        simp [hc, ih.1 false]
      · simp [collapseRunsAux, hc, headNotSpace]

theorem collapse_fix : ∀ (l : PyStr), collapsedOk l = true →
    collapseRunsAux pyIsSpaceB ' ' false l = l ∧
      (headNotSpace l = true → collapseRunsAux pyIsSpaceB ' ' true l = l) := by
  intro l
  induction l with
  | nil => exact fun _ => ⟨rfl, fun _ => rfl⟩
  | cons c rest ih =>
    intro hok
    unfold collapsedOk at hok
    rw [Bool.and_eq_true] at hok
    obtain ⟨hq, hrest⟩ := hok
    have ihr := ih hrest
    by_cases hc : pyIsSpaceB c = true
    · have hq' : c = ' ' ∧ headNotSpace rest = true := by
        rw [Bool.or_eq_true] at hq
        rcases hq with hq | hq
        · rw [hc] at hq; cases hq
        · rw [Bool.and_eq_true] at hq
          exact ⟨by simpa using hq.1, hq.2⟩
      constructor
      · simp only [collapseRunsAux, hc, if_true, Bool.false_eq_true, if_false]
        rw [ihr.2 hq'.2, hq'.1]
      · intro hhead
        simp [headNotSpace, hc] at hhead
    · simp only [Bool.not_eq_true] at hc
      constructor
      · simp only [collapseRunsAux, hc, Bool.false_eq_true, if_false]
        rw [ihr.1]
      · intro _
        simp only [collapseRunsAux, hc, Bool.false_eq_true, if_false]
        rw [ihr.1]

theorem collapsedOk_tail {c : Char} {l : PyStr} (h : collapsedOk (c :: l) = true) :
    collapsedOk l = true := by
  unfold collapsedOk at h
  rw [Bool.and_eq_true] at h
  exact h.2

theorem collapsedOk_dropWhile {p : Char → Bool} :
    ∀ {l : PyStr}, collapsedOk l = true → collapsedOk (l.dropWhile p) = true := by
  intro l
  induction l with
  | nil => intro h; exact h
  | cons c rest ih =>
    intro h
    rw [List.dropWhile_cons]
    by_cases hc : p c = true
    · simp only [hc, if_true]
      exact ih (collapsedOk_tail h)
    · simp only [Bool.not_eq_true] at hc
      simp [hc, h]

theorem headNotSpace_append_left {l₁ l₂ : PyStr} (h : l₁ ≠ []) :
    headNotSpace (l₁ ++ l₂) = headNotSpace l₁ := by
  cases l₁ with
  | nil => exact absurd rfl h
  | cons c rest => rfl

theorem collapsedOk_append_left : ∀ {l₁ l₂ : PyStr},
    collapsedOk (l₁ ++ l₂) = true → collapsedOk l₁ = true := by
  intro l₁
  induction l₁ with
  | nil => intro l₂ _; rfl
  | cons c rest ih =>
    intro l₂ h
    have h' : collapsedOk ((c :: rest) ++ l₂) = true := h
    rw [List.cons_append] at h'
    unfold collapsedOk at h'
    rw [Bool.and_eq_true] at h'
    obtain ⟨hq, hrest⟩ := h'
    unfold collapsedOk
    rw [Bool.and_eq_true]
    refine ⟨?_, ih hrest⟩
    rw [Bool.or_eq_true] at hq ⊢
    rcases hq with hq' | hq'
    · exact Or.inl hq'
    · rw [Bool.and_eq_true] at hq'
      right
      rw [Bool.and_eq_true]
      refine ⟨hq'.1, ?_⟩
      cases rest with
      | nil => rfl
      | cons d rest' =>
        have hh := hq'.2
        rw [headNotSpace_append_left (by simp)] at hh
        exact hh

theorem rstrip_append (l : PyStr) :
    pyRstrip l ++ (l.reverse.takeWhile pyIsSpaceB).reverse = l := by
  unfold pyRstrip
  have h : l.reverse.takeWhile pyIsSpaceB ++ l.reverse.dropWhile pyIsSpaceB = l.reverse :=
    List.takeWhile_append_dropWhile pyIsSpaceB l.reverse
  calc (l.reverse.dropWhile pyIsSpaceB).reverse ++ (l.reverse.takeWhile pyIsSpaceB).reverse
      = (l.reverse.takeWhile pyIsSpaceB ++ l.reverse.dropWhile pyIsSpaceB).reverse := by
        rw [List.reverse_append]
    _ = l.reverse.reverse := by rw [h]
    _ = l := List.reverse_reverse l

theorem collapsedOk_rstrip {l : PyStr} (h : collapsedOk l = true) :
    collapsedOk (pyRstrip l) = true := by
  apply @collapsedOk_append_left (pyRstrip l) ((l.reverse.takeWhile pyIsSpaceB).reverse)

  rw [rstrip_append]
  exact h

theorem headNotSpace_dropWhile (l : PyStr) :
    headNotSpace (l.dropWhile pyIsSpaceB) = true := by
  induction l with
  | nil => rfl
  | cons c rest ih =>
    rw [List.dropWhile_cons]
    by_cases hc : pyIsSpaceB c = true
    · simp only [hc, if_true]; exact ih
    · simp only [Bool.not_eq_true] at hc
      simp [hc, headNotSpace]

theorem headNotSpace_lstrip (l : PyStr) : headNotSpace (pyLstrip l) = true :=
  headNotSpace_dropWhile l

theorem lastNotSpace_rstrip (l : PyStr) : lastNotSpace (pyRstrip l) = true := by
  unfold lastNotSpace pyRstrip
  rw [List.reverse_reverse]
  exact headNotSpace_dropWhile l.reverse

theorem lastNotSpace_lstrip {l : PyStr} (h : lastNotSpace l = true) :
    lastNotSpace (pyLstrip l) = true := by
  unfold pyLstrip
  have hsplit : l.takeWhile pyIsSpaceB ++ l.dropWhile pyIsSpaceB = l :=
    List.takeWhile_append_dropWhile pyIsSpaceB l
  cases hd : l.dropWhile pyIsSpaceB with
  | nil => rfl
  | cons c rest =>
    unfold lastNotSpace at h ⊢
    rw [← hsplit, hd] at h
    rw [List.reverse_append] at h
    rw [headNotSpace_append_left (by simp)] at h
    exact h

theorem lstrip_id {l : PyStr} (h : headNotSpace l = true) : pyLstrip l = l := by
  unfold pyLstrip
  cases l with
  | nil => rfl
  | cons c rest =>
    unfold headNotSpace at h
    rw [List.dropWhile_cons]
    rw [Bool.not_eq_true'] at h
    simp [h]

theorem rstrip_id {l : PyStr} (h : lastNotSpace l = true) : pyRstrip l = l := by
  unfold pyRstrip
  unfold lastNotSpace at h
  have h2 : List.dropWhile pyIsSpaceB l.reverse = l.reverse := lstrip_id h
  rw [h2]
  exact List.reverse_reverse l

theorem strip_id {l : PyStr} (h1 : headNotSpace l = true) (h2 : lastNotSpace l = true) :
    pyStrip l = l := by
  unfold pyStrip
  rw [rstrip_id h2, lstrip_id h1]

/-- The cleaned description is a fixed point of collapsing + stripping. -/
theorem descClean_idem (s : PyStr) :
    pyStrip (collapseRuns pyIsSpaceB ' ' (pyStrip (collapseRuns pyIsSpaceB ' ' s))) =
      pyStrip (collapseRuns pyIsSpaceB ' ' s) := by
  set m := collapseRuns pyIsSpaceB ' ' s with hm
  have hok : collapsedOk m = true := (collapse_ok s).1 false
  have hok2 : collapsedOk (pyStrip m) = true := by
    unfold pyStrip pyLstrip
    exact collapsedOk_dropWhile (collapsedOk_rstrip hok)
  have hh : headNotSpace (pyStrip m) = true := headNotSpace_lstrip (pyRstrip m)
  have hl : lastNotSpace (pyStrip m) = true := lastNotSpace_lstrip (lastNotSpace_rstrip m)
  have hcol : collapseRuns pyIsSpaceB ' ' (pyStrip m) = pyStrip m :=
    (collapse_fix (pyStrip m) hok2).1
  rw [hcol]
  exact strip_id hh hl

/-! ## Lemmas about `_clean_item` and `_validate_and_clean_items` -/

theorem lookup_mem {k v : String} :
    ∀ {m : List (String × String)}, m.lookup k = some v → (k, v) ∈ m := by
  intro m
  induction m with
  | nil => intro h; cases h
  | cons kv rest ih =>
    intro h
    by_cases hb : (k == kv.1) = true
    · have hk : k = kv.1 := eq_of_beq hb
      rw [List.lookup, hb] at h
      cases h
      exact List.mem_cons.mpr (Or.inl (by rw [hk]))
    · rw [List.lookup] at h
      rw [Bool.not_eq_true] at hb
      rw [hb] at h
      exact List.mem_cons.mpr (Or.inr (ih h))

theorem unit_canon_idem (u : String) :
    (match DataExtractor.unit_mapping.lookup (String.mk (pyLower
        (match DataExtractor.unit_mapping.lookup (String.mk (pyLower u.toList)) with
         | some v => v
         | none => u).toList)) with
     | some w => w
     | none =>
       match DataExtractor.unit_mapping.lookup (String.mk (pyLower u.toList)) with
       | some v => v
       | none => u) =
    (match DataExtractor.unit_mapping.lookup (String.mk (pyLower u.toList)) with
     | some v => v
     | none => u) := by
  cases h : DataExtractor.unit_mapping.lookup (String.mk (pyLower u.toList)) with
  | none =>
    have h' : List.lookup { data := pyLower u.data } DataExtractor.unit_mapping = none := h
    simp [h, h']
  | some v =>
    simp only [h]
    have hmem := lookup_mem h
    have hv : v = "m2" ∨ v = "m3" ∨ v = "kg" ∨ v = "l" ∨ v = "un" ∨ v = "m" := by
      simp [DataExtractor.unit_mapping] at hmem
      tauto
    rcases hv with rfl | rfl | rfl | rfl | rfl | rfl <;> rfl

theorem truthyQ_some_iff {o : Option ℚ} :
    DataExtractor.truthyQ o = true ↔ ∃ q, o = some q ∧ q ≠ 0 := by
  cases o with
  | none => simp [DataExtractor.truthyQ]
  | some q => simp [DataExtractor.truthyQ]

theorem clean_item_idem (x : DataExtractor.Item) :
    DataExtractor.clean_item (DataExtractor.clean_item x) = DataExtractor.clean_item x := by
  unfold DataExtractor.clean_item
  simp only [DataExtractor.Item.mk.injEq]
  refine ⟨?_, ?_, ?_, ?_⟩
  · -- code component
    by_cases hc : x.code = ""
    · simp [hc, ite_self]
    · simp [hc]
  · -- description component
    exact congrArg String.mk (descClean_idem x.description.toList)
  · -- unit component
    exact unit_canon_idem x.unit
  · -- total_price component
    by_cases hq : DataExtractor.truthyQ x.quantity = true
    · by_cases hp : DataExtractor.truthyQ x.unit_price = true
      · by_cases ht : DataExtractor.truthyQ x.total_price = true
        · simp [hq, hp, ht]
        · rw [Bool.not_eq_true] at ht
          obtain ⟨q, hqv, hq0⟩ := truthyQ_some_iff.mp hq
          obtain ⟨p, hpv, hp0⟩ := truthyQ_some_iff.mp hp
          have hprod : DataExtractor.truthyQ
              (x.quantity.bind (fun q => x.unit_price.map (fun p => q * p))) = true := by
            rw [hqv, hpv]
            simp [DataExtractor.truthyQ, Option.bind]
            exact ⟨hq0, hp0⟩
          simp [hq, hp, ht, hprod]
      · rw [Bool.not_eq_true] at hp
        simp [hq, hp]
    · rw [Bool.not_eq_true] at hq
      simp [hq]

theorem is_valid_clean {x : DataExtractor.Item}
    (h : DataExtractor.is_valid_item x = true) :
    DataExtractor.is_valid_item (DataExtractor.clean_item x) = true := by
  unfold DataExtractor.is_valid_item at h ⊢
  rw [Bool.and_eq_true] at h ⊢
  obtain ⟨hd, hqp⟩ := h
  constructor
  · have hne : pyStrip x.description.toList ≠ [] := by
      intro hcon
      rw [hcon] at hd
      simp at hd
    have hne2 := strip_clean_ne_nil hne
    simp only [DataExtractor.clean_item]
    rw [Bool.not_eq_true']
    rw [List.isEmpty_eq_false]
    exact hne2
  · simpa [DataExtractor.clean_item] using hqp

theorem contains_eq_true_iff {seen : List String} {k : String} :
    seen.contains k = true ↔ k ∈ seen := List.elem_iff

theorem mem_of_mem_dedupAux {y : DataExtractor.Item} :
    ∀ {seen : List String} {l : List DataExtractor.Item},
      y ∈ DataExtractor.dedupAux seen l → y ∈ l := by
  intro seen l
  induction l generalizing seen with
  | nil => intro h; exact absurd h (by simp [DataExtractor.dedupAux])
  | cons it rest ih =>
    intro h
    unfold DataExtractor.dedupAux at h
    by_cases hk : seen.contains (DataExtractor.dedupKey it) = true
    · simp only [hk, if_true] at h
      exact List.mem_cons.mpr (Or.inr (ih h))
    · rw [Bool.not_eq_true] at hk
      simp only [hk, Bool.false_eq_true, if_false] at h
      rcases List.mem_cons.mp h with rfl | hmem
      · exact List.mem_cons.mpr (Or.inl rfl)
      · exact List.mem_cons.mpr (Or.inr (ih hmem))

theorem dedupAux_nodup :
    ∀ (l : List DataExtractor.Item) (seen : List String),
      ((DataExtractor.dedupAux seen l).map DataExtractor.dedupKey).Nodup ∧
        ∀ k ∈ (DataExtractor.dedupAux seen l).map DataExtractor.dedupKey, k ∉ seen := by
  intro l
  induction l with
  | nil => intro seen; simp [DataExtractor.dedupAux]
  | cons it rest ih =>
    intro seen
    unfold DataExtractor.dedupAux
    by_cases hk : seen.contains (DataExtractor.dedupKey it) = true
    · simp only [hk, if_true]
      exact ih seen
    · rw [Bool.not_eq_true] at hk
      simp only [hk, Bool.false_eq_true, if_false]
      obtain ⟨ihn, ihs⟩ := ih (DataExtractor.dedupKey it :: seen)
      constructor
      · rw [List.map_cons, List.nodup_cons]
        refine ⟨?_, ihn⟩
        intro hmem
        exact (ihs _ hmem) (List.mem_cons.mpr (Or.inl rfl))
      · intro k hkmem
        rw [List.map_cons] at hkmem
        rcases List.mem_cons.mp hkmem with rfl | hkm
        · intro hcon
          rw [← contains_eq_true_iff] at hcon
          rw [hcon] at hk
          cases hk
        · intro hcon
          exact (ihs k hkm) (List.mem_cons.mpr (Or.inr hcon))

theorem dedupAux_eq_self :
    ∀ {l : List DataExtractor.Item} {seen : List String},
      (l.map DataExtractor.dedupKey).Nodup →
      (∀ k ∈ l.map DataExtractor.dedupKey, k ∉ seen) →
      DataExtractor.dedupAux seen l = l := by
  intro l
  induction l with
  | nil => intro seen _ _; rfl
  | cons it rest ih =>
    intro seen hnd hout
    unfold DataExtractor.dedupAux
    have hk : seen.contains (DataExtractor.dedupKey it) = false := by
      rw [Bool.eq_false_iff]
      intro hcon
      rw [contains_eq_true_iff] at hcon
      exact hout (DataExtractor.dedupKey it) (by simp) hcon
    simp only [hk, Bool.false_eq_true, if_false]
    rw [List.map_cons, List.nodup_cons] at hnd
    congr 1
    apply ih hnd.2
    intro k hkm
    intro hcon
    rcases List.mem_cons.mp hcon with rfl | hcs
    · exact hnd.1 hkm
    · exact hout k (by simp [hkm]) hcs

theorem valid_of_mem_vci {y : DataExtractor.Item} {items : List DataExtractor.Item}
    (h : y ∈ DataExtractor.validate_and_clean_items items) :
    DataExtractor.is_valid_item y = true := by
  unfold DataExtractor.validate_and_clean_items at h
  have h2 := mem_of_mem_dedupAux h
  obtain ⟨x, hx, rfl⟩ := List.mem_map.mp h2
  exact is_valid_clean (List.mem_filter.mp hx).2

theorem clean_fix_of_mem_vci {y : DataExtractor.Item} {items : List DataExtractor.Item}
    (h : y ∈ DataExtractor.validate_and_clean_items items) :
    DataExtractor.clean_item y = y := by
  unfold DataExtractor.validate_and_clean_items at h
  have h2 := mem_of_mem_dedupAux h
  obtain ⟨x, _, rfl⟩ := List.mem_map.mp h2
  exact clean_item_idem x

theorem vci_idem (items : List DataExtractor.Item) :
    DataExtractor.validate_and_clean_items (DataExtractor.validate_and_clean_items items) =
      DataExtractor.validate_and_clean_items items := by
  have hvalid : ∀ y ∈ DataExtractor.validate_and_clean_items items,
      DataExtractor.is_valid_item y = true := fun y hy => valid_of_mem_vci hy
  have hfix : ∀ y ∈ DataExtractor.validate_and_clean_items items,
      DataExtractor.clean_item y = y := fun y hy => clean_fix_of_mem_vci hy
  have hstep : DataExtractor.validate_and_clean_items
      (DataExtractor.validate_and_clean_items items) =
      DataExtractor.dedupAux []
        (((DataExtractor.validate_and_clean_items items).filter
            DataExtractor.is_valid_item).map DataExtractor.clean_item) := rfl
  rw [hstep, List.filter_eq_self.mpr hvalid]
  rw [show (DataExtractor.validate_and_clean_items items).map DataExtractor.clean_item =
      (DataExtractor.validate_and_clean_items items).map id from List.map_congr_left hfix]
  rw [List.map_id]
  have hnodup : ((DataExtractor.validate_and_clean_items items).map
      DataExtractor.dedupKey).Nodup := (dedupAux_nodup _ _).1
  apply dedupAux_eq_self hnodup
  intro k _ hcon
  simp at hcon

theorem extract_core_cases (t : String) (f : Option String) :
    (∃ items, DataExtractor.extract_core t f =
        .ok (DataExtractor.validate_and_clean_items items)) ∨
      DataExtractor.extract_core t f = .error () := by
  have hdef : DataExtractor.extract_core t f =
      (DataExtractor.extract_strategy
          (DataExtractor.resolve_format f (pySplitNl (DataExtractor.clean_text t.toList)))
          (pySplitNl (DataExtractor.clean_text t.toList))).map
        DataExtractor.validate_and_clean_items := rfl
  rw [hdef]
  cases DataExtractor.extract_strategy
      (DataExtractor.resolve_format f (pySplitNl (DataExtractor.clean_text t.toList)))
      (pySplitNl (DataExtractor.clean_text t.toList)) with
  | ok items => exact Or.inl ⟨items, rfl⟩
  | error e => cases e; exact Or.inr rfl

theorem valid_of_mem_extract {it : DataExtractor.Item} {t : String} {f : Option String}
    (h : it ∈ DataExtractor.extract_budget_items t f) :
    DataExtractor.is_valid_item it = true := by
  rcases extract_core_cases t f with ⟨items, hc⟩ | hc
  · unfold DataExtractor.extract_budget_items at h
    rw [hc] at h
    exact valid_of_mem_vci h
  · unfold DataExtractor.extract_budget_items at h
    rw [hc] at h
    simp at h

/-! ## Claim theorems -/

set_option maxRecDepth 1000000

/-- C1 (counterexample): it is NOT the case that every line item
returned by `extract_budget_items` has its quantity, unit price and unit
all present and individually positive — on the concrete list-format
input `c1text`, the single extracted item has `unit_price = none`. -/
theorem C1_counterexample :
    ¬ ∀ it ∈ DataExtractor.extract_budget_items c1text (some "list"),
        (∃ q, it.quantity = some q ∧ 0 < q) ∧
          (∃ p, it.unit_price = some p ∧ 0 < p) ∧ it.unit ≠ "" := by
  intro h
  have he : DataExtractor.extract_budget_items c1text (some "list") = [c1item] := by
    with_unfolding_all rfl
  have hm : c1item ∈ DataExtractor.extract_budget_items c1text (some "list") := by
    rw [he]; exact List.mem_singleton.mpr rfl
  obtain ⟨-, ⟨p, hp, -⟩, -⟩ := h c1item hm
  rw [show c1item.unit_price = none from rfl] at hp
  cases hp

/-- C1 (amended): every line item returned by the extraction pipeline
has a non-empty description and at least one of quantity and unit price
present and positive; the other of the two, and the unit, may be
absent/empty. -/
theorem C1_amended_guarantee :
    ∀ (text : String) (fmt : Option String) (it : DataExtractor.Item),
      it ∈ DataExtractor.extract_budget_items text fmt →
      it.description ≠ "" ∧
        (DataExtractor.posQ it.quantity = true ∨ DataExtractor.posQ it.unit_price = true) := by
  intro t f it h
  have hv := valid_of_mem_extract h
  unfold DataExtractor.is_valid_item at hv
  rw [Bool.and_eq_true] at hv
  constructor
  · intro hcon
    rw [hcon] at hv
    exact absurd hv.1 (by decide)
  · have h2 := hv.2
    rw [Bool.or_eq_true] at h2
    exact h2

/-- C1 (witness): the amended guarantee instantiated on the concrete
item extracted from `c1text`. -/
theorem C1_amended_guarantee_witness :
    c1item ∈ DataExtractor.extract_budget_items c1text (some "list") ∧
      (c1item.description ≠ "" ∧
        (DataExtractor.posQ c1item.quantity = true ∨
          DataExtractor.posQ c1item.unit_price = true)) := by
  have he : DataExtractor.extract_budget_items c1text (some "list") = [c1item] := by
    with_unfolding_all rfl
  have hm : c1item ∈ DataExtractor.extract_budget_items c1text (some "list") := by
    rw [he]; exact List.mem_singleton.mpr rfl
  exact ⟨hm, C1_amended_guarantee c1text (some "list") c1item hm⟩

/-- C2: every item returned by `extract_budget_items` satisfies the
validity invariant — non-empty (whitespace-collapsed) description, and a
positive quantity or a positive unit price. -/
theorem C2_validity_invariant :
    ∀ (text : String) (fmt : Option String) (it : DataExtractor.Item),
      it ∈ DataExtractor.extract_budget_items text fmt →
      (it.description ≠ "" ∧
          it.description.toList =
            pyStrip (collapseRuns pyIsSpaceB ' ' it.description.toList)) ∧
        (DataExtractor.posQ it.quantity = true ∨ DataExtractor.posQ it.unit_price = true) := by
  intro t f it h
  have hv := valid_of_mem_extract h
  unfold DataExtractor.is_valid_item at hv
  rw [Bool.and_eq_true] at hv
  have hfix : DataExtractor.clean_item it = it := by
    rcases extract_core_cases t f with ⟨items, hc⟩ | hc
    · unfold DataExtractor.extract_budget_items at h
      rw [hc] at h
      exact clean_fix_of_mem_vci h
    · unfold DataExtractor.extract_budget_items at h
      rw [hc] at h
      simp at h
  refine ⟨⟨?_, ?_⟩, ?_⟩
  · intro hcon
    rw [hcon] at hv
    exact absurd hv.1 (by decide)
  · -- the returned description is its own collapsed/stripped form
    conv_lhs => rw [← hfix]
    rfl
  · have h2 := hv.2
    rw [Bool.or_eq_true] at h2
    exact h2

/-- C2 (witness): the invariant instantiated at the item extracted from
`c1text`. -/
theorem C2_validity_invariant_witness :
    c1item ∈ DataExtractor.extract_budget_items c1text (some "list") ∧
      ((c1item.description ≠ "" ∧
          c1item.description.toList =
            pyStrip (collapseRuns pyIsSpaceB ' ' c1item.description.toList)) ∧
        (DataExtractor.posQ c1item.quantity = true ∨
          DataExtractor.posQ c1item.unit_price = true)) := by
  have he : DataExtractor.extract_budget_items c1text (some "list") = [c1item] := by
    with_unfolding_all rfl
  have hm : c1item ∈ DataExtractor.extract_budget_items c1text (some "list") := by
    rw [he]; exact List.mem_singleton.mpr rfl
  exact ⟨hm, C2_validity_invariant c1text (some "list") c1item hm⟩

/-- C3: on the spec's end-to-end table scenario input, the pipeline
returns NO items — `_clean_text` collapses every whitespace run
(including the two-space column separators and all newlines) to single
spaces before `_split_table_row` looks for `\s{2,}|\t`, so no line ever
splits into the required 4 columns. -/
theorem C3_table_scenario_returns_nothing :
    DataExtractor.extract_budget_items c3text (some "table") = [] := by
  with_unfolding_all rfl

/-- C5: `_validate_and_clean_items` is idempotent — applied to its own
output it returns that output unchanged (same items, same order, no
further dedup removals). -/
theorem C5_normalizer_idempotent (items : List DataExtractor.Item) :
    DataExtractor.validate_and_clean_items (DataExtractor.validate_and_clean_items items) =
      DataExtractor.validate_and_clean_items items :=
  vci_idem items

/-- C4: the placeholder code is NOT sequential — `_clean_item` computes
`f"AUTO_{len(cleaned) + 1:03d}"` where `len(cleaned)` is the number of
keys of the six-key item dict, so every codeless surviving candidate
receives the same constant code `"AUTO_007"`.  On the concrete input
`c4text` both surviving codeless candidates end up with code
`"AUTO_007"`. -/
theorem C4_auto_code_constant :
    DataExtractor.extract_budget_items c4text none =
      [⟨"AUTO_007", "Excavacion manual", "m3", some 20, some 150, some 3000⟩,
       ⟨"AUTO_007", "Relleno compactado", "m2", some 30, some 200, some 6000⟩] ∧
    ∀ it : DataExtractor.Item,
      (DataExtractor.clean_item { it with code := "" }).code = "AUTO_007" := by
  constructor
  · with_unfolding_all rfl
  · intro it
    rfl

/-- C6: the `+0.3` table bonus of `_calculate_format_score` is never
added — the code reads `content.get('has_table_structure')` from the
content dict (which has no such key, so the lookup is always `None`) and
additionally tests `'table' in 'tabla estándar'` (false) — so the
standard-table score is always exactly the capped indicator fraction;
every template score is capped at `1.0`; and on the concrete input
`c6text`, whose table ratio is `1 > 0.3`, the score is `3/6 = 1/2` with
no bonus. -/
theorem C6_table_bonus_never_applied :
    (∀ (s : FormatDetector.StructureAnalysis) (c : FormatDetector.ContentAnalysis),
        FormatDetector.calculate_format_score FormatDetector.standard_table s c =
          min ((FormatDetector.standardTableMatchCount s c : ℚ) / 6) 1) ∧
    (∀ (fi : FormatDetector.FormatInfo) (s : FormatDetector.StructureAnalysis)
        (c : FormatDetector.ContentAnalysis),
        FormatDetector.calculate_format_score fi s c ≤ 1) ∧
    ((FormatDetector.analyze_structure c6lines).table_lines : ℚ) >
      ((FormatDetector.analyze_structure c6lines).total_lines : ℚ) * (3 / 10) ∧
    FormatDetector.calculate_format_score FormatDetector.standard_table
      (FormatDetector.analyze_structure c6lines)
      (FormatDetector.analyze_content (pyUpper c6text.toList)) = 1 / 2 := by
  refine ⟨?_, ?_, ?_, ?_⟩
  · intro s c
    unfold FormatDetector.calculate_format_score
    have h1 : FormatDetector.optBoolTruthy (FormatDetector.contentGetHasTableStructure c) =
        false := rfl
    have h2 : FormatDetector.optBoolTruthy (FormatDetector.contentGetHasListStructure c) =
        false := rfl
    have h3 : containsSub (pyLower FormatDetector.standard_table.name.toList)
        "detallado".toList = false := by decide
    simp only [h1, h2, h3, Bool.false_and, Bool.and_false, Bool.false_eq_true, if_false]
    rfl
  · intro fi s c
    unfold FormatDetector.calculate_format_score
    exact min_le_right _ _
  · apply of_decide_eq_true
    with_unfolding_all rfl
  · with_unfolding_all rfl

/-- Page list shape: lengths and `text_length` fields of the pages built
by `read_pdf`. -/
theorem mkPagesFrom_spec (texts : List String) :
    ∀ i, ((PDFReader.mkPagesFrom i texts).map PDFReader.PageText.text_length =
        texts.map (fun t => t.toList.length)) ∧
      (PDFReader.mkPagesFrom i texts).length = texts.length := by
  induction texts with
  | nil => intro i; exact ⟨rfl, rfl⟩
  | cons t rest ih =>
    intro i
    obtain ⟨ih1, ih2⟩ := ih (i + 1)
    constructor
    · simp only [PDFReader.mkPagesFrom, List.map_cons, ih1]
    · simp only [PDFReader.mkPagesFrom, List.length_cons, ih2]

/-- C7: for every non-empty document, `is_scanned` is true exactly when
the average extractable text length per page is strictly below 100; in
particular an average of exactly 100 is NOT scanned. -/
theorem C7_scanned_threshold :
    ∀ texts : List String, texts ≠ [] →
      ((PDFReader.detect_scanned_pdf (PDFReader.mkPages texts) = true ↔
          ((((texts.map (fun t => t.toList.length)).sum : ℕ) : ℚ) / (texts.length : ℚ) < 100)) ∧
        (((((texts.map (fun t => t.toList.length)).sum : ℕ) : ℚ) / (texts.length : ℚ) = 100 →
          PDFReader.detect_scanned_pdf (PDFReader.mkPages texts) = false))) := by
  intro texts hne
  obtain ⟨hmap0, hlen0⟩ := mkPagesFrom_spec texts 0
  have hmap : ((PDFReader.mkPages texts).map PDFReader.PageText.text_length) =
      texts.map (fun t => t.toList.length) := hmap0
  have hlen : (PDFReader.mkPages texts).length = texts.length := hlen0
  have hempty : (PDFReader.mkPages texts).isEmpty = false := by
    rw [List.isEmpty_eq_false]
    intro hcon
    apply hne
    have hc2 := congrArg List.length hcon
    rw [hlen] at hc2
    exact List.length_eq_zero.mp hc2
  have hdet : PDFReader.detect_scanned_pdf (PDFReader.mkPages texts) =
      decide ((((texts.map (fun t => t.toList.length)).sum : ℕ) : ℚ) /
        (texts.length : ℚ) < 100) := by
    unfold PDFReader.detect_scanned_pdf
    rw [hempty]
    simp only [Bool.false_eq_true, if_false]
    rw [hmap, hlen]
  constructor
  · rw [hdet]
    exact decide_eq_true_iff
  · intro heq
    rw [hdet]
    rw [decide_eq_false_iff_not]
    rw [heq]
    exact lt_irrefl 100

/-- C7 (witness): a one-page document whose page text is exactly 100
characters is not scanned. -/
theorem C7_scanned_threshold_witness :
    ([c7page] : List String) ≠ [] ∧
      PDFReader.detect_scanned_pdf (PDFReader.mkPages [c7page]) = false := by
  have hne : ([c7page] : List String) ≠ [] := by simp
  refine ⟨hne, (C7_scanned_threshold [c7page] hne).2 ?_⟩
  with_unfolding_all rfl

/-- The running totals of `_process_ocr_data`'s loop are the sum and
count of the kept tokens (positive confidence, non-blank stripped
text). -/
theorem processLoop_spec :
    ∀ (toks : List OCRProcessor.OcrToken)
      (acc : List OCRProcessor.WordInfo × List (Int × List OCRProcessor.WordInfo) × ℚ × Nat),
      (OCRProcessor.processLoop acc toks).2.2.1 =
          acc.2.2.1 + ((toks.filter OCRProcessor.keptToken).map OCRProcessor.OcrToken.conf).sum ∧
        (OCRProcessor.processLoop acc toks).2.2.2 =
          acc.2.2.2 + (toks.filter OCRProcessor.keptToken).length := by
  intro toks
  induction toks with
  | nil => intro acc; simp [OCRProcessor.processLoop]
  | cons tok rest ih =>
    intro acc
    simp only [OCRProcessor.processLoop]
    split
    · next hc =>
      have hk : OCRProcessor.keptToken tok = true := hc
      rw [List.filter_cons_of_pos hk]
      obtain ⟨ih1, ih2⟩ := ih (acc.1 ++ [_], OCRProcessor.assocAppend tok.line_num _ acc.2.1,
        acc.2.2.1 + tok.conf, acc.2.2.2 + 1)
      refine ⟨?_, ?_⟩
      · rw [ih1]
        simp only [List.map_cons, List.sum_cons]
        ring
      · rw [ih2]
        simp only [List.length_cons]
        omega
    · next hc =>
      have hk : OCRProcessor.keptToken tok = false := by
        rw [Bool.eq_false_iff]
        intro hh
        exact hc hh
      rw [List.filter_cons_of_neg (by rw [hk]; exact Bool.false_ne_true)]
      exact ih acc

/-- C8 (counterexample): the aggregate OCR confidence is NOT the mean
over all tokens with positive confidence — a whitespace-only token with
confidence 50 is excluded, so the code reports 80 where the claimed mean
is 65. -/
theorem C8_counterexample :
    (OCRProcessor.process_ocr_data [c8tok1, c8tok2]).average_confidence = 80 ∧
      OCRProcessor.specAggregateConfidence [c8tok1, c8tok2] = 65 ∧ (80 : ℚ) ≠ 65 := by
  refine ⟨by with_unfolding_all rfl, by with_unfolding_all rfl, by norm_num⟩

/-- C8 (amended): the aggregate confidence equals the mean of token
confidences over the tokens with confidence strictly greater than 0 AND
non-blank stripped text (0 when no token qualifies). -/
theorem C8_amended_mean (toks : List OCRProcessor.OcrToken) :
    (OCRProcessor.process_ocr_data toks).average_confidence =
      (if (toks.filter OCRProcessor.keptToken).isEmpty then 0
       else ((toks.filter OCRProcessor.keptToken).map OCRProcessor.OcrToken.conf).sum /
         ((toks.filter OCRProcessor.keptToken).length : ℚ)) := by
  obtain ⟨h1, h2⟩ := processLoop_spec toks ([], [], 0, 0)
  have havg : (OCRProcessor.process_ocr_data toks).average_confidence =
      (if (OCRProcessor.processLoop ([], [], 0, 0) toks).2.2.2 > 0 then
        (OCRProcessor.processLoop ([], [], 0, 0) toks).2.2.1 /
          ((OCRProcessor.processLoop ([], [], 0, 0) toks).2.2.2 : ℚ)
       else 0) := rfl
  rw [havg, h1, h2]
  simp only [zero_add]
  cases hf : toks.filter OCRProcessor.keptToken with
  | nil => simp
  | cons w ws => simp

/-- C9: batch OCR returns exactly one entry per input page in input
order; each entry depends only on its own page (a failing page becomes
an error entry with empty text and zero confidence, without affecting
any sibling). -/
theorem C9_batch_per_page :
    ∀ (ρ : Type) (π : String → Except String ρ) (paths : List String),
      (OCRProcessor.batch_process_images π paths).length = paths.length ∧
      ∀ i : Fin paths.length,
        (OCRProcessor.batch_process_images π paths).get
            (Fin.cast (by simp [OCRProcessor.batch_process_images]) i) =
          (match π (paths.get i) with
           | .ok r => OCRProcessor.BatchEntry.ok r
           | .error e => OCRProcessor.BatchEntry.err (paths.get i) e "" 0) := by
  intro ρ π paths
  constructor
  · simp [OCRProcessor.batch_process_images]
  · intro i
    unfold OCRProcessor.batch_process_images
    rw [List.get_map]
    rfl

/-- C9 (witness): a two-page batch where the second page fails — both
entries are present, in order, with the failing page recorded as an
error entry. -/
theorem C9_batch_per_page_witness :
    (OCRProcessor.batch_process_images c9proc ["good", "bad"]).length = 2 ∧
      (OCRProcessor.batch_process_images c9proc ["good", "bad"]).get
          (Fin.cast (by simp [OCRProcessor.batch_process_images]) (1 : Fin 2)) =
        OCRProcessor.BatchEntry.err "bad" "boom" "" 0 := by
  obtain ⟨hlen, hget⟩ := C9_batch_per_page Nat c9proc ["good", "bad"]
  refine ⟨hlen, ?_⟩
  rw [hget (1 : Fin 2)]
  rfl

/-- C10: `extract_budget_items` never raises — an internal error yields
`[]`, a success yields its item list, and a `[]` result is exactly
"no items found or internal error", so the caller cannot tell the two
apart from the return value. -/
theorem C10_never_raises :
    ∀ (text : String) (fmt : Option String),
      (∀ e, DataExtractor.extract_core text fmt = .error e →
        DataExtractor.extract_budget_items text fmt = []) ∧
      (∀ l, DataExtractor.extract_core text fmt = .ok l →
        DataExtractor.extract_budget_items text fmt = l) ∧
      (DataExtractor.extract_budget_items text fmt = [] ↔
        (DataExtractor.extract_core text fmt = .ok [] ∨
          ∃ e, DataExtractor.extract_core text fmt = .error e)) := by
  intro t f
  cases h : DataExtractor.extract_core t f with
  | ok l =>
    have hext : DataExtractor.extract_budget_items t f = l := by
      unfold DataExtractor.extract_budget_items
      rw [h]
    refine ⟨?_, ?_, ?_⟩
    · intro e he
      exact Except.noConfusion he
    · intro l' hl
      injection hl with h2
      rw [hext]
      exact h2
    · rw [hext]
      constructor
      · intro hnil
        left
        rw [hnil]
      · intro hc
        rcases hc with hok | ⟨e, herr⟩
        · injection hok with h2
        · exact Except.noConfusion herr
  | error e =>
    cases e
    have hext : DataExtractor.extract_budget_items t f = [] := by
      unfold DataExtractor.extract_budget_items
      rw [h]
    refine ⟨fun _ _ => hext, ?_, ?_⟩
    · intro l' hl
      exact Except.noConfusion hl
    · rw [hext]
      exact ⟨fun _ => Or.inr ⟨(), rfl⟩, fun _ => rfl⟩

/-- C10 (witness): on the empty document the pipeline returns `[]` and
its core succeeds with `[]`. -/
theorem C10_never_raises_witness :
    DataExtractor.extract_budget_items "" none = [] ∧
      DataExtractor.extract_core "" none = .ok [] := by
  have hc : DataExtractor.extract_core "" none = .ok [] := by with_unfolding_all rfl
  exact ⟨((C10_never_raises "" none).2.1) [] hc, hc⟩
